import Mathlib

/-!
Verification of the reference-checker core (`app.py`) against its
specification.  The Python source is shallowly embedded: strings are
`String`, Python `None`-able strings are `Option String`, years are
`Option Int` on the parser side and a dynamic `PyYear` on the provider
side (the provider can deliver the *string* `"Unknown"` as a year),
fallible code returns `Except String`.  Python's `re` usage in
`parse_reference` is embedded through a small backtracking regex engine
(`Re`, `reM`) whose patterns are transcribed verbatim from the source;
the simple anchored patterns of the canonicalization helpers are
hand-compiled.  The fuzzy title-similarity score (`rapidfuzz`, an
external library) is treated as an abstract parameter `sim`.
-/

/-! ## Python string primitives -/

/-- Whitespace characters recognised by Python's `str.strip` / `\s`
(ASCII portion, which is all the source's data uses). -/
def isPySpace (c : Char) : Bool :=
  c = ' ' || c = '\t' || c = '\n' || c = '\r' || c = '\x0b' || c = '\x0c'

/-- ASCII lower-casing of a character, modelling Python `str.lower`. -/
def asciiLower (c : Char) : Char :=
  if 65 ≤ c.toNat ∧ c.toNat ≤ 90 then Char.ofNat (c.toNat + 32) else c

/-- ASCII upper-casing of a character, modelling Python `str.upper`. -/
def asciiUpper (c : Char) : Char :=
  if 97 ≤ c.toNat ∧ c.toNat ≤ 122 then Char.ofNat (c.toNat - 32) else c

/-- Python `s.lower()`. -/
def pyLower (s : String) : String := String.mk (s.data.map asciiLower)

/-- Python `s.strip()` on a character list. -/
def pyStripL (l : List Char) : List Char :=
  ((l.dropWhile isPySpace).reverse.dropWhile isPySpace).reverse

/-- Python `s.strip()`. -/
def pyStrip (s : String) : String := String.mk (pyStripL s.data)

/-- Python `s.rstrip(set)`: drop trailing characters belonging to `set`. -/
def rstripSet (s : String) (set : List Char) : String :=
  String.mk ((s.data.reverse.dropWhile (fun c => set.contains c)).reverse)

/-- Worker for `pySplitWs`: `cur` holds the current word reversed. -/
def pySplitWsAux (cur : List Char) : List Char → List String
  | [] => if cur.isEmpty then [] else [String.mk cur.reverse]
  | c :: cs =>
    if isPySpace c then
      if cur.isEmpty then pySplitWsAux [] cs
      else String.mk cur.reverse :: pySplitWsAux [] cs
    else pySplitWsAux (c :: cur) cs

/-- Python `s.split()` (no argument): split on whitespace runs, no empty
parts. -/
def pySplitWs (s : String) : List String := pySplitWsAux [] s.data

/-- Python `s.isupper()` restricted to ASCII letters: at least one cased
character and no lower-case cased character. -/
def pyIsUpper (s : String) : Bool :=
  s.data.any (fun c => ('a' ≤ c ∧ c ≤ 'z') ∨ ('A' ≤ c ∧ c ≤ 'Z')) &&
  s.data.all (fun c => ¬('a' ≤ c ∧ c ≤ 'z'))

/-- Numeric value of a digit string (all uses are `\d{4}` matches). -/
def digitsToNat (s : String) : Nat :=
  s.data.foldl (fun a c => a * 10 + (c.toNat - 48)) 0

/-- Does `need` occur at the head of `hay`? -/
def leadsWith : List Char → List Char → Bool
  | [], _ => true
  | _ :: _, [] => false
  | a :: as, b :: bs => a = b && leadsWith as bs

/-- Python `hay.find(need)`: index of the leftmost occurrence. -/
def findSub (need : List Char) : List Char → Option Nat
  | [] => if need.isEmpty then some 0 else none
  | h :: t =>
    if leadsWith need (h :: t) then some 0
    else (findSub need t).map (· + 1)

/-- Python `need in hay` for substrings. -/
def containsSub (hay need : String) : Bool := (findSub need.data hay.data).isSome

/-- Python `s.replace(need, repl)` (all occurrences, left to right);
`fuel` bounds the scan and is instantiated with the input length. -/
def replAllAux (need repl : List Char) : Nat → List Char → List Char
  | 0, l => l
  | _ + 1, [] => if need.isEmpty then repl else []
  | fuel + 1, c :: cs =>
    if need ≠ [] ∧ leadsWith need (c :: cs) then
      repl ++ replAllAux need repl fuel ((c :: cs).drop need.length)
    else c :: replAllAux need repl fuel cs

/-- Python `s.replace(need, repl)` for a non-empty `need`. -/
def replAll (s need repl : String) : String :=
  String.mk (replAllAux need.data repl.data (s.data.length + 1) s.data)

/-- Take the first `n` characters (Python slicing `s[:n]`). -/
def strTake (s : String) (n : Nat) : String := String.mk (s.data.take n)

/-- Drop the first `n` characters (Python slicing `s[n:]`). -/
def strDrop (s : String) (n : Nat) : String := String.mk (s.data.drop n)

/-- Worker for `splitCharS`; keeps empty segments, like Python
`str.split(sep)`. -/
def splitCharAux (sep : Char) (cur : List Char) : List Char → List (List Char)
  | [] => [cur.reverse]
  | c :: cs =>
    if c = sep then cur.reverse :: splitCharAux sep [] cs
    else splitCharAux sep (c :: cur) cs

/-- Python `s.split(sep)` for a one-character separator. -/
def splitCharS (sep : Char) (s : String) : List String :=
  (splitCharAux sep [] s.data).map String.mk

/-! ## Regex engine

A backtracking matcher for the fragment of Python `re` that `app.py`
uses: literals, character classes (ranges, negation), `.`, sequencing,
alternation (preferring the left branch), counted greedy/lazy
repetition, capturing groups, `\b`, `^`, `$`, and the `re.I` flag.
`re.search` semantics: the leftmost match wins, and within a start
position alternatives are explored in Python's preference order. -/

/-- Regex syntax. Classes are lists of inclusive character ranges. -/
inductive Re where
  | eps : Re
  | lit : Char → Re
  | cls : Bool → List (Char × Char) → Re
  | dot : Re
  | seq : Re → Re → Re
  | alt : Re → Re → Re
  | rep : Re → Nat → Option Nat → Bool → Re
  | grp : Nat → Re → Re
  | wordB : Re
  | bos : Re
  | eos : Re
deriving Repr

/-- Capture list: group index with start and end positions (most recent
first). -/
abbrev Caps := List (Nat × Nat × Nat)

/-- A match: start position, end position, captures. -/
abbrev RMatch := Nat × Nat × Caps

/-- Character equality under an optional ignore-case flag. -/
def charEq (ci : Bool) (p d : Char) : Bool :=
  p = d || (ci && asciiLower p = asciiLower d)

/-- Class membership under an optional ignore-case flag (Python folds
the subject character). -/
def inCls (ci : Bool) (neg : Bool) (rs : List (Char × Char)) (d : Char) : Bool :=
  let mem := fun (c : Char) => rs.any (fun r => r.1 ≤ c ∧ c ≤ r.2)
  let hit := mem d || (ci && (mem (asciiLower d) || mem (asciiUpper d)))
  if neg then !hit else hit

/-- Is `c` a word character (`\w`)? -/
def isWordChar (c : Char) : Bool :=
  ('a' ≤ c ∧ c ≤ 'z') || ('A' ≤ c ∧ c ≤ 'Z') || ('0' ≤ c ∧ c ≤ '9') || c = '_'

/-- Word-boundary test from the previous character and the suffix. -/
def atWordB (prev : Option Char) (suf : List Char) : Bool :=
  let a := match prev with | some c => isWordChar c | none => false
  let b := match suf with | c :: _ => isWordChar c | [] => false
  a ≠ b

/-- Decrement an optional repetition bound. -/
def decHi : Option Nat → Option Nat
  | none => none
  | some n => some (n - 1)

/-- CPS backtracking matcher.  `suf` is the remaining input, `pos` its
absolute position, `prev` the character just before `suf` (for `\b`),
`k` the success continuation.  `fuel` bounds the recursion depth (not
the backtracking tree) and is chosen far above any reachable depth. -/
def reM (ci : Bool) : Nat → Re → List Char → Nat → Option Char → Caps →
    (List Char → Nat → Option Char → Caps → Option RMatch) → Option RMatch
  | 0, _, _, _, _, _, _ => none
  | _ + 1, .eps, suf, pos, prev, caps, k => k suf pos prev caps
  | _ + 1, .lit c, suf, pos, _, caps, k =>
    match suf with
    | [] => none
    | d :: rest => if charEq ci c d then k rest (pos + 1) (some d) caps else none
  | _ + 1, .cls neg rs, suf, pos, _, caps, k =>
    match suf with
    | [] => none
    | d :: rest => if inCls ci neg rs d then k rest (pos + 1) (some d) caps else none
  | _ + 1, .dot, suf, pos, _, caps, k =>
    match suf with
    | [] => none
    | d :: rest => if d = '\n' then none else k rest (pos + 1) (some d) caps
  | fuel + 1, .seq a b, suf, pos, prev, caps, k =>
    reM ci fuel a suf pos prev caps (fun s p pr c => reM ci fuel b s p pr c k)
  | fuel + 1, .alt a b, suf, pos, prev, caps, k =>
    match reM ci fuel a suf pos prev caps k with
    | some m => some m
    | none => reM ci fuel b suf pos prev caps k
  | fuel + 1, .rep r lo hi lazy, suf, pos, prev, caps, k =>
    if lo > 0 then
      reM ci fuel r suf pos prev caps
        (fun s p pr c => reM ci fuel (.rep r (lo - 1) (decHi hi) lazy) s p pr c k)
    else
      match hi with
      | some 0 => k suf pos prev caps
      | _ =>
        let iter := fun _ : Unit =>
          reM ci fuel r suf pos prev caps
            (fun s p pr c =>
              if p = pos then none
              else reM ci fuel (.rep r 0 (decHi hi) lazy) s p pr c k)
        if lazy then
          match k suf pos prev caps with
          | some m => some m
          | none => iter ()
        else
          match iter () with
          | some m => some m
          | none => k suf pos prev caps
  | fuel + 1, .grp i r, suf, pos, prev, caps, k =>
    reM ci fuel r suf pos prev caps (fun s p pr c => k s p pr ((i, pos, p) :: c))
  | _ + 1, .wordB, suf, pos, prev, caps, k =>
    if atWordB prev suf then k suf pos prev caps else none
  | _ + 1, .bos, suf, pos, prev, caps, k =>
    if pos = 0 then k suf pos prev caps else none
  | _ + 1, .eos, suf, pos, prev, caps, k =>
    if suf.isEmpty then k suf pos prev caps else none

/-- Recursion-depth budget for `reM`; far above any depth the source's
patterns can reach on a citation line. -/
def reFuel : Nat := 6000

/-- Try to match `re` at successive start positions (`re.search`
semantics: leftmost match wins).  `count` is a countdown over the
remaining start positions. -/
def reTryAt (ci : Bool) (re : Re) : Nat → List Char → Nat → Option Char → Option RMatch
  | 0, _, _, _ => none
  | count + 1, suf, pos, prev =>
    match reM ci reFuel re suf pos prev [] (fun _ p _ c => some (pos, p, c)) with
    | some m => some m
    | none =>
      match suf with
      | [] => none
      | c :: rest => reTryAt ci re count rest (pos + 1) (some c)

/-- Python `re.search(re, s)` (with `ci` for the `re.I` flag). -/
def reSearch (ci : Bool) (re : Re) (s : String) : Option RMatch :=
  reTryAt ci re (s.data.length + 1) s.data 0 none

/-- Look up a group's span in the captures (most recent entry wins). -/
def getCap (caps : Caps) (i : Nat) : Option (Nat × Nat) :=
  match caps.find? (fun x => x.1 == i) with
  | some x => some (x.2.1, x.2.2)
  | none => none

/-- Text of capture group `i` of a match over `s` (empty if unset; every
use in the source reads a group that the successful match always sets). -/
def groupStr (s : String) (m : RMatch) (i : Nat) : String :=
  match getCap m.2.2 i with
  | some (a, b) => String.mk ((s.data.drop a).take (b - a))
  | none => ""

/-- Python `re.sub(re, repl, s)`: replace every non-overlapping match,
scanning left to right over the original string.  All source patterns
match at least one character.  `count` bounds the loop. -/
def reSubAux (ci : Bool) (re : Re) (repl : List Char) (all : List Char) :
    Nat → List Char → Nat → Option Char → List Char
  | 0, suf, _, _ => suf
  | count + 1, suf, pos, prev =>
    match reTryAt ci re (suf.length + 1) suf pos prev with
    | none => suf
    | some (s, e, _) =>
      (suf.take (s - pos)) ++ repl ++
        (if e ≤ s then
          match all.drop e with
          | [] => []
          | c :: rest => c :: reSubAux ci re repl all count rest (e + 1) (some c)
         else
          reSubAux ci re repl all count (all.drop e) e
            (match all.drop (e - 1) with | c :: _ => some c | [] => none))

/-- Python `re.sub(re, repl, s)`. -/
def reSubAll (ci : Bool) (re : Re) (repl : String) (s : String) : String :=
  String.mk (reSubAux ci re repl.data s.data (s.data.length + 1) s.data 0 none)

/-- Python `re.split(re, s)`: the segments between matches. -/
def reSplitAux (ci : Bool) (re : Re) (all : List Char) :
    Nat → List Char → Nat → Option Char → List (List Char)
  | 0, suf, _, _ => [suf]
  | count + 1, suf, pos, prev =>
    match reTryAt ci re (suf.length + 1) suf pos prev with
    | none => [suf]
    | some (s, e, _) =>
      (suf.take (s - pos)) ::
        (if e ≤ s then [all.drop e]
         else
          reSplitAux ci re all count (all.drop e) e
            (match all.drop (e - 1) with | c :: _ => some c | [] => none))

/-- Python `re.split(re, s)`. -/
def reSplitAll (ci : Bool) (re : Re) (s : String) : List String :=
  (reSplitAux ci re s.data (s.data.length + 1) s.data 0 none).map String.mk

/-! ## Canonicalization utilities (`app.py` 30–83)

`normalize_doi`'s two anchored prefix substitutions are hand-compiled:
`^https?://(dx\.)?doi\.org/` can only remove one of four literal
prefixes (case-insensitively), and `^doi:` one.  The other helpers
follow the source line by line. -/

/-- Python truthiness of an optional string (`if not doi`). -/
def truthyStr : Option String → Bool
  | none => false
  | some s => s ≠ ""

/-- Length of the `^https?://(dx\.)?doi\.org/` match at the head of
`s`, if any (the four possible literal prefixes are mutually
exclusive). -/
def urlDoiHeadLen (s : String) : Option Nat :=
  if pyLower (strTake s 15) = "http://doi.org/" then some 15
  else if pyLower (strTake s 16) = "https://doi.org/" then some 16
  else if pyLower (strTake s 18) = "http://dx.doi.org/" then some 18
  else if pyLower (strTake s 19) = "https://dx.doi.org/" then some 19
  else none

/-- Effect of `re.sub(r'^https?://(dx\.)?doi\.org/', '', s, flags=re.I)`. -/
def dropUrlDoiHead (s : String) : String :=
  match urlDoiHeadLen s with
  | some n => strDrop s n
  | none => s

/-- Does `s` begin with `doi:` case-insensitively? -/
def hasDoiColonHead (s : String) : Bool := pyLower (strTake s 4) = "doi:"

/-- Effect of `re.sub(r'^doi:', '', s, flags=re.I)`. -/
def dropDoiColonHead (s : String) : String :=
  if hasDoiColonHead s then strDrop s 4 else s

/-- Characters trimmed from the right by `normalize_doi`. -/
def doiTrailSet : List Char := ['.', ',', ';', ')']

/-- `normalize_doi` (`app.py` 30–37): strip a URL or `doi:` head, trim
trailing `.,;)`, lower-case, strip whitespace; `None`/empty input gives
`None`. -/
def normalize_doi (doi : Option String) : Option String :=
  if ¬truthyStr doi then none
  else
    match doi with
    | none => none
    | some s =>
      let s := dropUrlDoiHead s
      let s := dropDoiColonHead s
      let s := rstripSet s doiTrailSet
      some (pyStrip (pyLower s))

/-- Regex `\(\d{4}\)` (used as a global deletion in author cleanup). -/
def patParenYearRe : Re :=
  .seq (.lit '(') (.seq (.rep (.cls false [('0', '9')]) 4 (some 4) false) (.lit ')'))

/-- Regex `^\[\d+\]\s*` (leading bracketed citation number). -/
def patLeadBrRe : Re :=
  .seq .bos (.seq (.lit '[')
    (.seq (.rep (.cls false [('0', '9')]) 1 none false)
      (.seq (.lit ']')
        (.rep (.cls false [(' ', ' '), ('\t', '\t'), ('\n', '\n'), ('\r', '\r'),
          ('\x0b', '\x0b'), ('\x0c', '\x0c')]) 0 none false))))

/-- `extract_surname` (`app.py` 40–63): strip `(YYYY)` and a leading
`[n]`, then take the text before a comma, or the last whitespace token
unless it looks like an initial, in which case the first token. -/
def extract_surname (author_name : String) : String :=
  if author_name = "" then ""
  else
    let a := pyStrip (reSubAll false patParenYearRe "" author_name)
    let a := reSubAll false patLeadBrRe "" a
    if a.data.contains ',' then
      let surname := pyStrip ((splitCharS ',' a).headD "")
      if surname ≠ "" then pyLower surname else ""
    else
      match pySplitWs a with
      | [] => ""
      | [p] => pyLower p
      | p :: q :: rest =>
        let last_part := pyStrip (replAll ((q :: rest).getLastD q) "." "")
        if last_part.length ≤ 2 ∧ (pyIsUpper last_part ∨ last_part.length = 1) then
          pyLower p
        else pyLower ((q :: rest).getLastD q)

/-- Unicode dash variants unified by `normalize_page_range`. -/
def uniDashes : List Char := ['–', '—', '−']

/-- Dash unification step of `normalize_page_range` (three single-char
`str.replace` calls, i.e. a character map). -/
def mapDashes (l : List Char) : List Char :=
  l.map (fun c => if uniDashes.contains c then '-' else c)

/-- Effect of `re.sub(r'\s*-\s*', '-', s)`: a state machine that holds
pending whitespace (`pend`) and, after emitting a hyphen, skips the
whitespace the match consumed (`afterDash`). -/
def sdRun (afterDash : Bool) (pend : List Char) : List Char → List Char
  | [] => if afterDash then [] else pend
  | c :: cs =>
    if afterDash && isPySpace c then sdRun true [] cs
    else if c = '-' then '-' :: sdRun true [] cs
    else if isPySpace c then sdRun false (pend ++ [c]) cs
    else pend ++ c :: sdRun false [] cs

/-- The whitespace-collapsing substitution of `normalize_page_range`. -/
def subDash (l : List Char) : List Char := sdRun false [] l

/-- `normalize_page_range` (`app.py` 66–72). -/
def normalize_page_range (page_range : String) : String :=
  if page_range = "" ∨ page_range = "-" then "-"
  else pyStrip (String.mk (subDash (mapDashes page_range.data)))

/-- The characters of Python's `string.punctuation`. -/
def punctChars : List Char :=
  ['!', '"', '#', '$', '%', '&', '\'', '(', ')', '*', '+', ',', '-', '.', '/',
   ':', ';', '<', '=', '>', '?', '@', '[', '\\', ']', '^', '_', '`',
   '{', '|', '}', '~']

/-- Collapse whitespace runs to single spaces and strip, as
`re.sub(r'\s+', ' ', t).strip()` does. -/
def collapseWs (s : String) : String := String.intercalate " " (pySplitWs s)

/-- `standardize_title` (`app.py` 75–83): lower-case, normalise
`u.k.`/`u.s.`, delete punctuation, collapse whitespace. -/
def standardize_title (title : String) : String :=
  if title = "" then ""
  else
    let t := pyLower title
    let t := replAll (replAll t "u.k." "uk") "u.s." "us"
    let t := String.mk (t.data.filter (fun c => ¬punctChars.contains c))
    collapseWs t

/-- `standardize_title` applied to a possibly-`None` value (Python's
falsy check makes `standardize_title(None)` return `""`). -/
def standardizeTitleOpt : Option String → String
  | none => ""
  | some t => standardize_title t

/-! ## Pattern shorthands -/

/-- Concatenate a list of regexes. -/
def cat (l : List Re) : Re := l.foldr .seq .eps

/-- Literal string regex. -/
def chS (s : String) : Re := cat (s.data.map Re.lit)

/-- Class of single characters. -/
def cls1 (cs : List Char) : Re := .cls false (cs.map (fun c => (c, c)))

/-- Alternation over a list (left to right). -/
def altL (l : List Re) : Re := l.foldr .alt (.cls false [])

/-- `r?` (greedy). -/
def optQ (r : Re) : Re := .rep r 0 (some 1) false

/-- `r*` (greedy). -/
def star0 (r : Re) : Re := .rep r 0 none false

/-- `r*?` (lazy). -/
def star0L (r : Re) : Re := .rep r 0 none true

/-- `r+` (greedy). -/
def plus1 (r : Re) : Re := .rep r 1 none false

/-- `r+?` (lazy). -/
def plus1L (r : Re) : Re := .rep r 1 none true

/-- `r{n}`. -/
def repN (r : Re) (n : Nat) : Re := .rep r n (some n) false

/-- `r{n,}?` (lazy, at least `n`). -/
def repMinL (r : Re) (n : Nat) : Re := .rep r n none true

/-- Ranges of `\s`. -/
def spcRanges : List (Char × Char) :=
  [(' ', ' '), ('\t', '\t'), ('\n', '\n'), ('\r', '\r'), ('\x0b', '\x0b'), ('\x0c', '\x0c')]

/-- Ranges of `\w`. -/
def wrdRanges : List (Char × Char) := [('a', 'z'), ('A', 'Z'), ('0', '9'), ('_', '_')]

/-- `\d`. -/
def dgt : Re := .cls false [('0', '9')]

/-- `\s`. -/
def spcC : Re := .cls false spcRanges

/-- `\w`. -/
def wrdC : Re := .cls false wrdRanges

/-- `[A-Z]`. -/
def clsAZ : Re := .cls false [('A', 'Z')]

/-- `[a-z]`. -/
def clsaz : Re := .cls false [('a', 'z')]

/-- The quote characters of the detection class on line 129:
`[“”‘’"\'"]`. -/
def quoteChars : List Char := ['“', '”', '‘', '’', '"', '\'']

/-- The quote class `[“”"\'"]` used on lines 185 and 252. -/
def q4Chars : List Char := ['“', '”', '"', '\'']

/-- The quote class of pattern 5 on line 141. -/
def q5Chars : List Char := ['“', '”', '"', '‘', '’', '\'']

/-- Page-number class `[\d–\-—]`. -/
def pagesC : Re := .cls false [('0', '9'), ('–', '–'), ('-', '-'), ('—', '—')]

/-! ## Parser patterns (`app.py` 88–335), transcribed verbatim -/

/-- `^[\[\(\{]?\d+[\]\)\}]\.?\s*` (line 91). -/
def patLeadNum : Re :=
  cat [.bos, optQ (cls1 ['[', '(', '\x7b']), plus1 dgt, cls1 [']', ')', '\x7d'],
    optQ (.lit '.'), star0 spcC]

/-- `(?:https?://)?(?:doi\.org/|DOI:?\s*)?(10\.\d{4,9}/[^\s"\'<>\]]+)` (line 95, `re.I`). -/
def patDoi : Re :=
  cat [optQ (cat [chS "http", optQ (.lit 's'), chS "://"]),
    optQ (.alt (chS "doi.org/") (cat [chS "DOI", optQ (.lit ':'), star0 spcC])),
    .grp 1 (cat [chS "10.", .rep dgt 4 (some 9) false, .lit '/',
      plus1 (.cls true (spcRanges ++ [('"', '"'), ('\'', '\''), ('<', '<'), ('>', '>'), (']', ']')]))])]

/-- `\((\d{4})[a-z]?\)` (line 104). -/
def patYearParen : Re :=
  cat [.lit '(', .grp 1 (repN dgt 4), optQ clsaz, .lit ')']

/-- `\.\s+(\d{4})\.\s+[“”"\'A-Z]` (line 109). -/
def patYearNarr : Re :=
  cat [.lit '.', plus1 spcC, .grp 1 (repN dgt 4), .lit '.', plus1 spcC,
    .cls false [('“', '“'), ('”', '”'), ('"', '"'), ('\'', '\''), ('A', 'Z')]]

/-- `\b(?:Jan|Feb|Mar|Apr|May|Jun|Jul|Aug|Sep|Oct|Nov|Dec)\.?\s+(\d{4})` (line 114, `re.I`). -/
def patYearMonth : Re :=
  cat [.wordB,
    altL (["Jan", "Feb", "Mar", "Apr", "May", "Jun", "Jul", "Aug", "Sep", "Oct",
      "Nov", "Dec"].map chS),
    optQ (.lit '.'), plus1 spcC, .grp 1 (repN dgt 4)]

/-- `,\s*(\d{4})\.?\s*(?:doi|$)` (line 118, `re.I`). -/
def patYearDoiEnd : Re :=
  cat [.lit ',', star0 spcC, .grp 1 (repN dgt 4), optQ (.lit '.'), star0 spcC,
    .alt (chS "doi") .eos]

/-- `[,\s](\d{4})[;,\.]` (line 122). -/
def patYearDelim : Re :=
  cat [.cls false ((',', ',') :: spcRanges), .grp 1 (repN dgt 4), cls1 [';', ',', '.']]

/-- `(?:vol\.\s*\d+.*?no\.\s*\d+|IEEE\s+\w+|\d+\(\d+\):\d+)` (line 127, `re.I`). -/
def patIeee : Re :=
  altL [cat [chS "vol.", star0 spcC, plus1 dgt, star0L .dot, chS "no.", star0 spcC, plus1 dgt],
    cat [chS "IEEE", plus1 spcC, plus1 wrdC],
    cat [plus1 dgt, .lit '(', plus1 dgt, .lit ')', .lit ':', plus1 dgt]]

/-- `;\d+\(\d+\):` (line 128). -/
def patVanc : Re :=
  cat [.lit ';', plus1 dgt, .lit '(', plus1 dgt, .lit ')', .lit ':']

/-- `[“”‘’"\'"]` (line 129). -/
def patQuoteAny : Re := cls1 quoteChars

/-- `“([^”]+)”` (line 137). -/
def patQ1 : Re :=
  cat [.lit '“', .grp 1 (plus1 (.cls true [('”', '”')])), .lit '”']

/-- `‘([^’]+)’` (line 138). -/
def patQ2 : Re :=
  cat [.lit '‘', .grp 1 (plus1 (.cls true [('’', '’')])), .lit '’']

/-- `"([^"]+)"` (line 139). -/
def patQ3 : Re :=
  cat [.lit '"', .grp 1 (plus1 (.cls true [('"', '"')])), .lit '"']

/-- `'([^']+)'` (line 140). -/
def patQ4 : Re :=
  cat [.lit '\'', .grp 1 (plus1 (.cls true [('\'', '\'')])), .lit '\'']

/-- `[“”"‘’\'](.+?)[“”"‘’\']` (line 141). -/
def patQ5 : Re :=
  cat [cls1 q5Chars, .grp 1 (plus1L .dot), cls1 q5Chars]

/-- `\band\s+[A-Z][\w\s\.]+?\.\s+` (line 151). -/
def patLastAuthor : Re :=
  cat [.wordB, chS "and", plus1 spcC, clsAZ,
    plus1L (.cls false (wrdRanges ++ spcRanges ++ [('.', '.')])), .lit '.', plus1 spcC]

/-- `[\w\s&]` class used by the IEEE title patterns. -/
def wsAmpC : Re := .cls false (wrdRanges ++ spcRanges ++ [('&', '&')])

/-- `^([A-Z][^\.]+?)\.\s+[A-Z][\w\s&]+?,?\s*vol\.` (line 157, `re.I`). -/
def patT1 : Re :=
  cat [.bos, .grp 1 (cat [clsAZ, plus1L (.cls true [('.', '.')])]), .lit '.', plus1 spcC,
    clsAZ, plus1L wsAmpC, optQ (.lit ','), star0 spcC, chS "vol."]

/-- `^([A-Z][^\.]+?)\.\s+[A-Z][\w\s&]+?,\s*\d+\(` (line 158, `re.I`). -/
def patT2 : Re :=
  cat [.bos, .grp 1 (cat [clsAZ, plus1L (.cls true [('.', '.')])]), .lit '.', plus1 spcC,
    clsAZ, plus1L wsAmpC, .lit ',', star0 spcC, plus1 dgt, .lit '(']

/-- `^([A-Z][^\.]{20,}?)\.\s+IEEE` (line 159, `re.I`). -/
def patT3 : Re :=
  cat [.bos, .grp 1 (cat [clsAZ, repMinL (.cls true [('.', '.')]) 20]), .lit '.', plus1 spcC,
    chS "IEEE"]

/-- `[\w\s:,\-]` class of the fallback title patterns. -/
def wsColC : Re := .cls false (wrdRanges ++ spcRanges ++ [(':', ':'), (',', ','), ('-', '-')])

/-- `\.\s+([A-Z][a-z][\w\s:,\-]{20,}?)\.\s+IEEE` (line 170, `re.I`). -/
def patF1 : Re :=
  cat [.lit '.', plus1 spcC, .grp 1 (cat [clsAZ, clsaz, repMinL wsColC 20]),
    .lit '.', plus1 spcC, chS "IEEE"]

/-- `\.\s+([A-Z][a-z][\w\s:,\-]{20,}?)\.\s+[A-Z][\w\s&]+?,\s*\d+\(` (line 171, `re.I`). -/
def patF2 : Re :=
  cat [.lit '.', plus1 spcC, .grp 1 (cat [clsAZ, clsaz, repMinL wsColC 20]),
    .lit '.', plus1 spcC, clsAZ, plus1L wsAmpC, .lit ',', star0 spcC, plus1 dgt, .lit '(']

/-- `\.\s+([A-Z][a-z][\w\s:,\-]{20,}?)\.\s+[A-Z][\w\s&]+?,?\s*vol\.` (line 172, `re.I`). -/
def patF3 : Re :=
  cat [.lit '.', plus1 spcC, .grp 1 (cat [clsAZ, clsaz, repMinL wsColC 20]),
    .lit '.', plus1 spcC, clsAZ, plus1L wsAmpC, optQ (.lit ','), star0 spcC, chS "vol."]

/-- `\b[A-Z]{1,3}\s+[A-Z][a-z]+\b` (line 179). -/
def patInitialsChk : Re :=
  cat [.wordB, .rep clsAZ 1 (some 3) false, plus1 spcC, clsAZ, plus1 clsaz, .wordB]

/-- `\.\s+{year}\.\s+[“”"\'"]?(.+?)[“”"\'"]?[\.?!]\s+[A-Z]` (line 185). -/
def patN1 (y : Nat) : Re :=
  cat [.lit '.', plus1 spcC, chS (toString y), .lit '.', plus1 spcC, optQ (cls1 q4Chars),
    .grp 1 (plus1L .dot), optQ (cls1 q4Chars), cls1 ['.', '?', '!'], plus1 spcC, clsAZ]

/-- `\.\s+{year}\.\s+(.+?)\.\s+[A-Z][A-Za-z\s]+\s+\d+` (line 189). -/
def patN2 (y : Nat) : Re :=
  cat [.lit '.', plus1 spcC, chS (toString y), .lit '.', plus1 spcC,
    .grp 1 (plus1L .dot), .lit '.', plus1 spcC, clsAZ,
    plus1 (.cls false ([('A', 'Z'), ('a', 'z')] ++ spcRanges)), plus1 spcC, plus1 dgt]

/-- `\(\d{4}\)\.\s*(.+?)[\.?!]\s+[A-Z]` (line 196). -/
def patP1 : Re :=
  cat [.lit '(', repN dgt 4, .lit ')', .lit '.', star0 spcC, .grp 1 (plus1L .dot),
    cls1 ['.', '?', '!'], plus1 spcC, clsAZ]

/-- `\(\d{4}\)\s+(.+?)[\.?!]\s+[A-Z]` (line 197). -/
def patP2 : Re :=
  cat [.lit '(', repN dgt 4, .lit ')', plus1 spcC, .grp 1 (plus1L .dot),
    cls1 ['.', '?', '!'], plus1 spcC, clsAZ]

/-- `\(\d{4}\)\s*\.?\s*(.+?)[\.?!]\s*(?:In\s+)?(?:Proceedings?|Conference)` (line 198). -/
def patP3 : Re :=
  cat [.lit '(', repN dgt 4, .lit ')', star0 spcC, optQ (.lit '.'), star0 spcC,
    .grp 1 (plus1L .dot), cls1 ['.', '?', '!'], star0 spcC,
    optQ (cat [chS "In", plus1 spcC]),
    .alt (cat [chS "Proceeding", optQ (.lit 's')]) (chS "Conference")]

/-- `\.(.+?)[\.?!]\s+[A-Z][^\.]+\s+\d{4}` (line 211). -/
def patVT : Re :=
  cat [.lit '.', .grp 1 (plus1L .dot), cls1 ['.', '?', '!'], plus1 spcC, clsAZ,
    plus1 (.cls true [('.', '.')]), plus1 spcC, repN dgt 4]

/-- `,\s*([^,]+?),\s*(?:vol\.|\d+\()` (line 229, `re.I`). -/
def patJQ : Re :=
  cat [.lit ',', star0 spcC, .grp 1 (plus1L (.cls true [(',', ',')])), .lit ',', star0 spcC,
    .alt (chS "vol.") (cat [plus1 dgt, .lit '('])]

/-- `[A-Za-z\s&]` class of the journal patterns. -/
def alphaAmpC : Re := .cls false ([('A', 'Z'), ('a', 'z'), ('&', '&')] ++ spcRanges)

/-- `\.\s+([A-Z][A-Za-z\s&]+?),\s*vol\.` (line 234, `re.I`). -/
def patJI1 : Re :=
  cat [.lit '.', plus1 spcC, .grp 1 (cat [clsAZ, plus1L alphaAmpC]), .lit ',', star0 spcC,
    chS "vol."]

/-- `\.\s+([A-Z][A-Za-z\s&]+?),\s*\d+\(` (line 235, `re.I`). -/
def patJI2 : Re :=
  cat [.lit '.', plus1 spcC, .grp 1 (cat [clsAZ, plus1L alphaAmpC]), .lit ',', star0 spcC,
    plus1 dgt, .lit '(']

/-- `\.([^\.]+)\.\s*\d{4};` (line 246). -/
def patJV : Re :=
  cat [.lit '.', .grp 1 (plus1 (.cls true [('.', '.')])), .lit '.', star0 spcC,
    repN dgt 4, .lit ';']

/-- `[\.?!]\s*[“”"\'"]?([A-Za-z\s&]+?)[“”"\'"]?\s*,?\s*\d+\s*\(` (line 252). -/
def patJG1 : Re :=
  cat [cls1 ['.', '?', '!'], star0 spcC, optQ (cls1 q4Chars), .grp 1 (plus1L alphaAmpC),
    optQ (cls1 q4Chars), star0 spcC, optQ (.lit ','), star0 spcC, plus1 dgt, star0 spcC,
    .lit '(']

/-- `[\.?!]\s+([A-Z][A-Za-z\s&]+?)\s+\d+\s*\(` (line 253). -/
def patJG2 : Re :=
  cat [cls1 ['.', '?', '!'], plus1 spcC, .grp 1 (cat [clsAZ, plus1L alphaAmpC]), plus1 spcC,
    plus1 dgt, star0 spcC, .lit '(']

/-- `vol\.\s*(\d+)` (line 266, `re.I`). -/
def patVolN : Re := cat [chS "vol.", star0 spcC, .grp 1 (plus1 dgt)]

/-- `no\.\s*(\d+)` (line 267, `re.I`). -/
def patNoN : Re := cat [chS "no.", star0 spcC, .grp 1 (plus1 dgt)]

/-- `pp\.\s*([\d–\-—]+)` (lines 268 and 299, `re.I`). -/
def patPp : Re := cat [chS "pp.", star0 spcC, .grp 1 (plus1 pagesC)]

/-- `(\d+)\s*\((\d+)\):\s*([\d–\-—]+)` (line 279). -/
def patPR1 : Re :=
  cat [.grp 1 (plus1 dgt), star0 spcC, .lit '(', .grp 2 (plus1 dgt), .lit ')', .lit ':',
    star0 spcC, .grp 3 (plus1 pagesC)]

/-- `,\s*(\d+)\s*\((\d+)\),\s*([\d–\-—]+)` (line 280). -/
def patPR2 : Re :=
  cat [.lit ',', star0 spcC, .grp 1 (plus1 dgt), star0 spcC, .lit '(', .grp 2 (plus1 dgt),
    .lit ')', .lit ',', star0 spcC, .grp 3 (plus1 pagesC)]

/-- `\d{4};(\d+)\((\d+)\):([\d–\-—]+)` (line 281). -/
def patPR3 : Re :=
  cat [repN dgt 4, .lit ';', .grp 1 (plus1 dgt), .lit '(', .grp 2 (plus1 dgt), .lit ')',
    .lit ':', .grp 3 (plus1 pagesC)]

/-- `\s(\d+)\s*\((\d+)\):\s*([\d–\-—]+)` (line 282). -/
def patPR4 : Re :=
  cat [spcC, .grp 1 (plus1 dgt), star0 spcC, .lit '(', .grp 2 (plus1 dgt), .lit ')',
    .lit ':', star0 spcC, .grp 3 (plus1 pagesC)]

/-- `\s(\d+):\s*([\d–\-—]+)` (line 283). -/
def patPR5 : Re :=
  cat [spcC, .grp 1 (plus1 dgt), .lit ':', star0 spcC, .grp 2 (plus1 pagesC)]

/-- `\.\s*\d{4}\.` (line 323). -/
def patDotYDot : Re := cat [.lit '.', star0 spcC, repN dgt 4, .lit '.']

/-! ## Reference parser (`app.py` 88–335) -/

/-- The structured record produced by `parse_reference`, plus the
parser's internal parenthetical-year flag (part of the spec's
`ParsedReference` data model). -/
structure ParsedRef where
  raw_reference : String
  ref_title : String
  ref_first_author : String
  ref_year : Option Int
  ref_journal : String
  ref_volume : String
  ref_issue : String
  ref_page_range : String
  doi : Option String
  year_in_parentheses : Bool
deriving Repr, DecidableEq

/-- First pattern of a cascade that matches, returning group 1. -/
def firstG1 (ci : Bool) (s : String) : List Re → Option String
  | [] => none
  | p :: rest =>
    match reSearch ci p s with
    | some m => some (groupStr s m 1)
    | none => firstG1 ci s rest

/-- Pattern-4 cascade (lines 195–207): first match whose stripped group
is longer than 10 characters wins; shorter matches fall through. -/
def firstParenTitle (s : String) : List Re → Option String
  | [] => none
  | p :: rest =>
    match reSearch false p s with
    | some m =>
      let potential := pyStrip (groupStr s m 1)
      if potential.length > 10 then some potential else firstParenTitle s rest
    | none => firstParenTitle s rest

/-- IEEE fallback cascade (lines 169–181): a match is rejected (and the
next pattern tried) when the first 40 characters of the stripped group
still look like an author list. -/
def firstFallbackTitle (s : String) : List Re → Option String
  | [] => none
  | p :: rest =>
    match reSearch true p s with
    | some m =>
      let potential := pyStrip (groupStr s m 1)
      if ¬(reSearch false patInitialsChk (strTake potential 40)).isSome then some potential
      else firstFallbackTitle s rest
    | none => firstFallbackTitle s rest

/-- Unquoted-IEEE journal cascade (lines 233–243): a candidate of 100 or
more characters falls through to the next pattern. -/
def firstIeeeJournal (s : String) : List Re → Option String
  | [] => none
  | p :: rest =>
    match reSearch true p s with
    | some m =>
      let potential := pyStrip (groupStr s m 1)
      if potential.length < 100 then some potential else firstIeeeJournal s rest
    | none => firstIeeeJournal s rest

/-- Volume/issue/pages cascade (lines 277–296); the `Bool` is the
pattern's `has_issue` flag. -/
def firstVolIssue (s : String) : List (Re × Bool) → Option (String × String × String)
  | [] => none
  | (p, hasIssue) :: rest =>
    match reSearch false p s with
    | some m =>
      if hasIssue then
        some (groupStr s m 1, groupStr s m 2, normalize_page_range (groupStr s m 3))
      else
        some (groupStr s m 1, "-", normalize_page_range (groupStr s m 2))
    | none => firstVolIssue s rest

/-- Quote characters removed from an extracted title (lines 216–220). -/
def stripQuoteChars (s : String) : String :=
  String.mk (s.data.filter (fun c => ¬q5Chars.contains c))

/-- First-author extraction (lines 304–319); the only partial step of
the parser: `raw_ref.split()[0]` raises `IndexError` on a whitespace-only
string with no comma, no period and no recognised year. -/
def firstAuthorOf (raw_ref : String) (year : Option Nat) (year_in_parentheses : Bool) :
    Except String String :=
  let dotFallback : Except String String :=
    if raw_ref.data.contains '.' then .ok (pyStrip ((splitCharS '.' raw_ref).headD ""))
    else
      match pySplitWs raw_ref with
      | [] => .error "IndexError: list index out of range"
      | w :: _ => .ok w
  if raw_ref.data.contains ',' then .ok (pyStrip ((splitCharS ',' raw_ref).headD ""))
  else
    match year with
    | some y =>
      let yearStr := if year_in_parentheses then "(" ++ toString y ++ ")"
        else ". " ++ toString y ++ "."
      match findSub yearStr.data raw_ref.data with
      | some ypos => if ypos > 0 then .ok (pyStrip (strTake raw_ref ypos)) else dotFallback
      | none => dotFallback
    | none => dotFallback

/-- `parse_reference` (`app.py` 88–335). -/
def parse_reference (raw_ref : String) : Except String ParsedRef :=
  let text := reSubAll false patLeadNum "" (pyStrip raw_ref)
  -- DOI extraction (lines 94–98)
  let doi : Option String :=
    match reSearch true patDoi text with
    | some m => some (rstripSet (groupStr text m 1) ['.', ',', ';', ')', ']'])
    | none => none
  -- year extraction (lines 101–124)
  let yearFlag : Option Nat × Bool :=
    match reSearch false patYearParen text with
    | some m => (some (digitsToNat (groupStr text m 1)), true)
    | none =>
      match reSearch false patYearNarr text with
      | some m => (some (digitsToNat (groupStr text m 1)), false)
      | none =>
        match reSearch true patYearMonth text with
        | some m => (some (digitsToNat (groupStr text m 1)), false)
        | none =>
          match reSearch true patYearDoiEnd text with
          | some m => (some (digitsToNat (groupStr text m 1)), false)
          | none =>
            match reSearch false patYearDelim text with
            | some m => (some (digitsToNat (groupStr text m 1)), false)
            | none => (none, false)
  let year := yearFlag.1
  let year_in_parentheses := yearFlag.2
  -- format detection (lines 127–129)
  let is_ieee_style := (reSearch true patIeee text).isSome
  let is_vancouver := (reSearch false patVanc text).isSome
  let has_quotes := (reSearch false patQuoteAny text).isSome
  -- title extraction (lines 132–213)
  let title := "Unknown"
  let title :=
    if has_quotes then
      match firstG1 false text [patQ1, patQ2, patQ3, patQ4, patQ5] with
      | some t => pyStrip t
      | none => title
    else title
  let title :=
    if title = "Unknown" ∧ is_ieee_style then
      let fromAuthors :=
        match reSearch false patLastAuthor text with
        | some m =>
          let after := strDrop text m.2.1
          match firstG1 true after [patT1, patT2, patT3] with
          | some t => some (pyStrip t)
          | none => none
        | none => none
      match fromAuthors with
      | some t => t
      | none =>
        match firstFallbackTitle text [patF1, patF2, patF3] with
        | some t => t
        | none => title
    else title
  let title :=
    if title = "Unknown" ∧ ¬year_in_parentheses then
      match year with
      | some y =>
        (match reSearch false (patN1 y) text with
        | some m => pyStrip (groupStr text m 1)
        | none =>
          match reSearch false (patN2 y) text with
          | some m => pyStrip (groupStr text m 1)
          | none => title)
      | none => title
    else title
  let title :=
    if title = "Unknown" ∧ year_in_parentheses then
      match firstParenTitle text [patP1, patP2, patP3] with
      | some t => t
      | none => title
    else title
  let title :=
    if title = "Unknown" ∧ is_vancouver then
      match reSearch false patVT text with
      | some m => pyStrip (groupStr text m 1)
      | none => title
    else title
  let title := if title ≠ "Unknown" then pyStrip (stripQuoteChars title) else title
  -- journal extraction (lines 223–260)
  let journal :=
    if is_ieee_style then
      if has_quotes then
        let parts := reSplitAll false patQuoteAny text
        let after_quote := if parts.length > 1 then parts.getLastD text else text
        match reSearch true patJQ after_quote with
        | some m => pyStrip (groupStr after_quote m 1)
        | none => "Unknown"
      else
        match firstIeeeJournal text [patJI1, patJI2] with
        | some j => j
        | none => "Unknown"
    else if is_vancouver then
      match reSearch false patJV text with
      | some m => pyStrip (groupStr text m 1)
      | none => "Unknown"
    else
      match firstG1 false text [patJG1, patJG2] with
      | some j => pyStrip j
      | none => "Unknown"
  -- volume/issue/pages (lines 263–301)
  let vip : String × String × String :=
    if containsSub (pyLower text) "vol." then
      ((match reSearch true patVolN text with
        | some m => groupStr text m 1
        | none => "-"),
       (match reSearch true patNoN text with
        | some m => groupStr text m 1
        | none => "-"),
       (match reSearch true patPp text with
        | some m => normalize_page_range (groupStr text m 1)
        | none => "-"))
    else ("-", "-", "-")
  let vip :=
    if vip.2.2 = "-" then
      match firstVolIssue text
        [(patPR1, true), (patPR2, true), (patPR3, true), (patPR4, true), (patPR5, false)] with
      | some v => v
      | none => vip
    else vip
  let vip :=
    if vip.2.2 = "-" then
      match reSearch true patPp text with
      | some m => (vip.1, vip.2.1, normalize_page_range (groupStr text m 1))
      | none => vip
    else vip
  -- first author (lines 304–323)
  match firstAuthorOf raw_ref year year_in_parentheses with
  | .error e => .error e
  | .ok fa =>
    let fa := reSubAll false patLeadBrRe "" fa
    let fa := pyStrip (reSubAll false patParenYearRe "" fa)
    let fa := pyStrip (reSubAll false patDotYDot "" fa)
    .ok { raw_reference := raw_ref, ref_title := title, ref_first_author := fa,
          ref_year := year.map Int.ofNat, ref_journal := journal, ref_volume := vip.1,
          ref_issue := vip.2.1, ref_page_range := vip.2.2, doi := doi,
          year_in_parentheses := year_in_parentheses }

/-! ## Provider metadata and comparison (`app.py` 371–595) -/

/-- Acceptance threshold for title-search matches (`app.py` 23). -/
def TITLE_THRESHOLD : Nat := 85

/-- Mismatch threshold for DOI-resolved titles (`app.py` 24). -/
def TITLE_MISMATCH_THRESHOLD : Nat := 70

/-- A Python year value as it can actually reach `compare_metadata` and
`verify_status`: absent (`None`), an integer, or a string — the
extractors default the year to the *string* `"Unknown"` when the
provider record carries none (`app.py` 380 and 478). -/
inductive PyYear where
  | none : PyYear
  | int : Int → PyYear
  | str : String → PyYear
deriving Repr, DecidableEq

/-- Python truthiness of a year value. -/
def pyYearTruthy : PyYear → Bool
  | .none => false
  | .int n => n ≠ 0
  | .str s => s ≠ ""

/-- Python truthiness of the parser's optional integer year. -/
def yearTruthyOpt : Option Int → Bool
  | none => false
  | some n => n ≠ 0

/-- View an optional integer year as a `PyYear`. -/
def pyYearOfOpt : Option Int → PyYear
  | none => .none
  | some n => .int n

/-- Decidable equality for `Except`, for concrete evaluations. -/
instance {e a : Type} [DecidableEq e] [DecidableEq a] : DecidableEq (Except e a) :=
  fun x y =>
    match x, y with
    | .ok u, .ok v =>
      if h : u = v then .isTrue (by rw [h]) else .isFalse (by simp [h])
    | .error u, .error v =>
      if h : u = v then .isTrue (by rw [h]) else .isFalse (by simp [h])
    | .ok _, .error _ => .isFalse (by simp)
    | .error _, .ok _ => .isFalse (by simp)

/-- Tri-state year difference: Python `False` / `"minor"` / `True`. -/
inductive YearDiff where
  | noDiff : YearDiff
  | minor : YearDiff
  | major : YearDiff
deriving Repr, DecidableEq

/-- External metadata as normalised by `extract_openalex_metadata` /
`extract_crossref_metadata` (the fields the verified components read). -/
structure OaMeta where
  oa_full_author : String
  oa_first_author : String
  oa_title : String
  oa_year : PyYear
  oa_journal : String
  oa_volume : String
  oa_issue : String
  oa_page_range : String
  oa_doi : Option String
  is_retracted : Bool
deriving Repr, DecidableEq

/-- Year branch of `compare_metadata` (`app.py` 537–551).  The guard is
Python truthiness; inside it `abs(ref_year - oa_year)` raises
`TypeError` when the provider side is a (truthy) string such as
`"Unknown"`.  Result: the `oa_year_diff` tri-state and the recorded
`oa_year_delta`. -/
def compare_year (ref_year : Option Int) (oa_year : PyYear) :
    Except String (YearDiff × Option Nat) :=
  if yearTruthyOpt ref_year && pyYearTruthy oa_year then
    match ref_year, oa_year with
    | some r, .int o =>
      let delta := (r - o).natAbs
      .ok (if delta = 0 then .noDiff else if delta ≤ 2 then .minor else .major, some delta)
    | _, _ => .error "TypeError: unsupported operand types for abs subtraction"
  else
    .ok (.major, none)

/-- Year contribution of `verify_status` (`app.py` 584–587): the guard
is `is not None` on both sides, and the subtraction raises `TypeError`
on a string year. -/
def yearPts (ref_year : Option Int) (oa_year : PyYear) : Except String Nat :=
  match ref_year, oa_year with
  | some r, .int o => .ok (if (r - o).natAbs ≤ 2 then 1 else 0)
  | some _, .str _ => .error "TypeError: unsupported operand types for abs subtraction"
  | _, _ => .ok 0

/-- `verify_status` (`app.py` 567–594); `sim` is
`fuzz.token_sort_ratio`, treated as an abstract score in `[0, 100]`. -/
def verify_status (sim : String → String → Nat) (p : ParsedRef) (m : OaMeta) :
    Except String (String × String) :=
  let title_score := sim (standardize_title p.ref_title) (standardize_title m.oa_title)
  let s1 : Nat := if title_score ≥ 90 then 2 else if title_score ≥ 80 then 1 else 0
  let ref_surname := extract_surname p.ref_first_author
  let oa_surname := extract_surname m.oa_first_author
  let s2 : Nat := if ref_surname ≠ "" ∧ oa_surname ≠ "" ∧ ref_surname = oa_surname then 1 else 0
  match yearPts p.ref_year m.oa_year with
  | .error e => .error e
  | .ok s3 =>
    let score := s1 + s2 + s3
    .ok (if score ≥ 4 then ("verified", "high")
      else if score ≥ 2 then ("ambiguous", "medium")
      else ("unverified", "low"))

/-! ## Orchestrator: title-search phase and DOI decision
(`app.py` 597–757) -/

/-- A provider record at the granularity the title-search loop reads:
`c_title` is `c.get("title", "")` for an OpenAlex candidate and
`title[0]` (or absent) for a Crossref candidate; `r_doi` the record's
DOI. -/
structure ProviderRecord where
  c_title : Option String
  r_doi : Option String
deriving Repr, DecidableEq

/-- The best-candidate loop (`app.py` 651–667): running maximum with
strict improvement, so the earliest candidate of maximal score wins and
`best_record` stays `None` only while every score is `0`. -/
def bestCand (sim : String → String → Nat) (refTitle : String)
    (cands : List ProviderRecord) : Nat × Option ProviderRecord :=
  cands.foldl (fun acc c =>
    let score := sim (standardize_title refTitle) (standardizeTitleOpt c.c_title)
    if score > acc.1 then (score, some c) else acc) (0, none)

/-- Acceptance step (`app.py` 669–671). -/
def titleSelect (sim : String → String → Nat) (refTitle : String)
    (cands : List ProviderRecord) (oa_record : Option ProviderRecord) :
    Option ProviderRecord × Bool :=
  if ¬cands.isEmpty then
    let best := bestCand sim refTitle cands
    if best.1 ≥ TITLE_THRESHOLD ∧ best.2.isSome then (best.2, true)
    else (oa_record, false)
  else (oa_record, false)

/-- Outcome of the title-search phase: the record the orchestrator
continues with, the `matched_by_title` flag, whether the search block
ran at all, whether the secondary provider was queried, and the
resulting `data_source`. -/
structure TSOut where
  record : Option ProviderRecord
  matched_by_title : Bool
  searchedTitle : Bool
  queriedCrossref : Bool
  data_source : Option String
deriving Repr, DecidableEq

/-- Title-search phase of `process_references` (`app.py` 635–671).
`oa_record_from_doi` and `title_similarity_score` summarise the DOI
phase; `openalexResults` / `crossrefResults` are the candidate lists
the two providers would return for this title. -/
def titleSearchPhase (sim : String → String → Nat) (ref_title : String)
    (oa_record_from_doi : Option ProviderRecord) (title_similarity_score : Nat)
    (dataSource0 : Option String)
    (openalexResults crossrefResults : List ProviderRecord) : TSOut :=
  if oa_record_from_doi.isNone || title_similarity_score < TITLE_MISMATCH_THRESHOLD then
    if ref_title ≠ "Unknown" then
      if openalexResults.isEmpty then
        let ds := if ¬crossrefResults.isEmpty then some "Crossref" else none
        let rb := titleSelect sim ref_title crossrefResults oa_record_from_doi
        ⟨rb.1, rb.2, true, true, ds⟩
      else
        let rb := titleSelect sim ref_title openalexResults oa_record_from_doi
        ⟨rb.1, rb.2, true, false, some "OpenAlex"⟩
    else ⟨oa_record_from_doi, false, false, false, dataSource0⟩
  else ⟨oa_record_from_doi, false, false, false, dataSource0⟩

/-- DOI reconciliation decision when an external record was resolved
(`app.py` 693–714): the fill status and the filled DOI. -/
def doiFillDecision (original_doi oa_doi : Option String)
    (doi_lookup_success matched_by_title : Bool)
    (final_title_similarity : Nat) : String × Option String :=
  let original_doi_norm := normalize_doi original_doi
  let oa_doi_norm := normalize_doi oa_doi
  if truthyStr original_doi then
    if doi_lookup_success ∧ final_title_similarity < TITLE_MISMATCH_THRESHOLD then
      ("doi_title_mismatch", none)
    else if truthyStr oa_doi_norm ∧ original_doi_norm = oa_doi_norm ∧
        final_title_similarity ≥ TITLE_MISMATCH_THRESHOLD then
      ("original_correct", original_doi)
    else if matched_by_title ∧ truthyStr oa_doi then
      ("title_matched_doi_corrected", oa_doi)
    else if truthyStr oa_doi ∧ original_doi_norm ≠ oa_doi_norm then
      ("original_wrong_corrected", oa_doi)
    else
      ("original_unverified", original_doi)
  else if truthyStr oa_doi then
    ("filled_from_database", oa_doi)
  else
    ("missing", none)

/-- DOI status when no external record was found (`app.py` 738–744). -/
def noRecordDoiFill (original_doi : Option String) : String × Option String :=
  if truthyStr original_doi then ("unverified", none) else ("missing", none)

/-- The §4.6 decision table read off the specification's own words, on
the abstract inputs the spec names.  The rows whose outcome fills the
*external* DOI (rows 3, 4 and 6) presuppose that an external DOI is
present, as their outcome column requires. -/
def doiFillSpecTable (origPresent lookupSuccess simBelow normEqual matchedByTitle
    extPresent : Bool) (original external : Option String) : String × Option String :=
  if origPresent then
    if lookupSuccess && simBelow then ("doi_title_mismatch", none)
    else if !simBelow && normEqual then ("original_correct", original)
    else if matchedByTitle && extPresent then ("title_matched_doi_corrected", external)
    else if extPresent && !normEqual then ("original_wrong_corrected", external)
    else ("original_unverified", original)
  else if extPresent then ("filled_from_database", external)
  else ("missing", none)

/-! ## Specification-side definitions

The following are written from the specification's words (not from the
source) and are compared with the source embeddings in the theorems
below. -/

/-- Verification score as §4.4 words it: +2 for title similarity ≥ 90
else +1 for ≥ 80, +1 for non-empty case-insensitively equal surnames,
+1 for years both present within 2. -/
def verifyScoreSpec (sim : String → String → Nat) (p : ParsedRef) (m : OaMeta) : Nat :=
  let t := sim (standardize_title p.ref_title) (standardize_title m.oa_title)
  (if t ≥ 90 then 2 else if t ≥ 80 then 1 else 0)
  + (if extract_surname p.ref_first_author ≠ "" ∧ extract_surname m.oa_first_author ≠ "" ∧
      pyLower (extract_surname p.ref_first_author) =
        pyLower (extract_surname m.oa_first_author) then 1 else 0)
  + (match p.ref_year, m.oa_year with
    | some r, .int o => if (r - o).natAbs ≤ 2 then 1 else 0
    | _, _ => 0)

/-- Classification of a verification score as §4.4 words it. -/
def verifyClassSpec (score : Nat) : String × String :=
  if score ≥ 4 then ("verified", "high")
  else if score ≥ 2 then ("ambiguous", "medium")
  else ("unverified", "low")

/-- Year reconciliation as amended for claim C4: a year that is absent
*or zero* (Python-falsy) short-circuits to a major difference with no
recorded delta; otherwise the absolute delta is recorded and classified
0 / 1–2 / more. -/
def yearDiffAmended (r o : Option Int) : YearDiff × Option Nat :=
  match r, o with
  | some a, some b =>
    if a = 0 ∨ b = 0 then (.major, none)
    else
      let d := (a - b).natAbs
      (if d = 0 then .noDiff else if d ≤ 2 then .minor else .major, some d)
  | _, _ => (.major, none)

/-- The shape claim C8 asserts of every normalised page range: the
sentinel, or exactly one hyphen separating two non-empty halves. -/
def claimShapePage (r : String) : Bool :=
  r == "-" ||
    (let parts := splitCharS '-' r
     parts.length == 2 && parts.headD "" ≠ "" && parts.getLastD "" ≠ "")

/-- No whitespace character adjacent to a hyphen. -/
def noSpaceAdjHyphen : List Char → Bool
  | [] => true
  | [_] => true
  | a :: b :: rest =>
    !((a = '-' && isPySpace b) || (isPySpace a && b = '-')) &&
      noSpaceAdjHyphen (b :: rest)

/-- No Unicode dash variant remains. -/
def noUniDash (l : List Char) : Bool := l.all (fun c => !uniDashes.contains c)

/-- Neither end of the string is whitespace. -/
def noEdgeSpace (l : List Char) : Bool :=
  (match l.head? with | some c => !isPySpace c | none => true) &&
  (match l.getLast? with | some c => !isPySpace c | none => true)

/-- Stability domain for `normalize_doi` (claim C7 as amended): the
first normalisation is non-empty, carries no removable head and does
not end in trimmable punctuation. -/
def doiNormStable (y : String) : Bool :=
  y ≠ "" && (urlDoiHeadLen y).isNone && !hasDoiColonHead y &&
    (match y.data.getLast? with | some c => !doiTrailSet.contains c | none => true)

/-- The APA citation of the spec's parsing scenario (claim C6). -/
def cortesLine : String :=
  "Cortes, C., & Vapnik, V. (1995). Support-vector Networks. Machine Learning, 20(3), 273–297."

/-- Concrete parsed reference of the spec's scoring example: matching
surname and a year one off the record's. -/
def scoreExP : ParsedRef :=
  { raw_reference := "Cortes, C. (1995). Support-vector networks."
    ref_title := "Support-vector networks"
    ref_first_author := "Cortes, C."
    ref_year := some 1995
    ref_journal := "Machine Learning"
    ref_volume := "20"
    ref_issue := "3"
    ref_page_range := "273-297"
    doi := none
    year_in_parentheses := true }

/-- Concrete external record of the spec's scoring example. -/
def scoreExM : OaMeta :=
  { oa_full_author := "Corinna Cortes, Vladimir Vapnik"
    oa_first_author := "Corinna Cortes"
    oa_title := "Support-Vector Networks"
    oa_year := .int 1996
    oa_journal := "Machine Learning"
    oa_volume := "20"
    oa_issue := "3"
    oa_page_range := "273-297"
    oa_doi := some "10.1007/bf00994018"
    is_retracted := false }

/-- A similarity oracle that always scores 92, for the spec's concrete
scoring example. -/
def sim92 : String → String → Nat := fun _ _ => 92

/-- A similarity oracle that always scores 0 (counterexample inputs). -/
def sim0 : String → String → Nat := fun _ _ => 0

/-- Is the year value anything but a string?  (The string case is the
`TypeError` defect of claim C5.) -/
def notStrYear : PyYear → Bool
  | .str _ => false
  | _ => true

/-- A concrete provider candidate for witnesses. -/
def provEx : ProviderRecord :=
  { c_title := some "Support-vector Networks", r_doi := some "10.1007/bf00994018" }

/-! ## Helper lemmas: characters, lower-casing, stripping -/

theorem charToNatOfNat (n : Nat) (h : n.isValidChar) : (Char.ofNat n).toNat = n := by
  simp [Char.ofNat, Char.toNat, Char.ofNatAux, h, UInt32.toNat, UInt32.ofNatCore]

theorem charEqOfToNat (a b : Char) (h : a.toNat = b.toNat) : a = b :=
  Char.ext (UInt32.ext h)

theorem asciiLower_idem (c : Char) : asciiLower (asciiLower c) = asciiLower c := by
  unfold asciiLower
  by_cases h : 65 ≤ c.toNat ∧ c.toNat ≤ 90
  · have hv : (c.toNat + 32).isValidChar := by
      unfold Nat.isValidChar
      left
      omega
    have ht := charToNatOfNat (c.toNat + 32) hv
    simp [h, ht]
    omega
  · simp [h]

theorem isPySpace_toNat (c : Char) : isPySpace c = true ↔
    (c.toNat = 32 ∨ c.toNat = 9 ∨ c.toNat = 10 ∨ c.toNat = 13 ∨ c.toNat = 11 ∨
      c.toNat = 12) := by
  unfold isPySpace
  simp only [Bool.or_eq_true, decide_eq_true_eq]
  constructor
  · intro h
    rcases h with ((((h | h) | h) | h) | h) | h <;> subst h <;> simp
  · rintro (h | h | h | h | h | h)
    · have : c = ' ' := charEqOfToNat c ' ' (by simpa using h)
      subst this
      simp
    · have : c = '\t' := charEqOfToNat c '\t' (by simpa using h)
      subst this
      simp
    · have : c = '\n' := charEqOfToNat c '\n' (by simpa using h)
      subst this
      simp
    · have : c = '\r' := charEqOfToNat c '\r' (by simpa using h)
      subst this
      simp
    · have : c = '\x0b' := charEqOfToNat c '\x0b' (by simpa using h)
      subst this
      simp
    · have : c = '\x0c' := charEqOfToNat c '\x0c' (by simpa using h)
      subst this
      simp

theorem isPySpace_asciiLower (c : Char) : isPySpace (asciiLower c) = isPySpace c := by
  unfold asciiLower
  by_cases h : 65 ≤ c.toNat ∧ c.toNat ≤ 90
  · have hv : (c.toNat + 32).isValidChar := by
      unfold Nat.isValidChar
      left
      omega
    have ht := charToNatOfNat (c.toNat + 32) hv
    have h1 : isPySpace (Char.ofNat (c.toNat + 32)) = false := by
      by_contra hx
      have := (isPySpace_toNat (Char.ofNat (c.toNat + 32))).mp (by
        cases hb : isPySpace (Char.ofNat (c.toNat + 32)) with
        | true => rfl
        | false => exact absurd hb hx)
      omega
    have h2 : isPySpace c = false := by
      by_contra hx
      have := (isPySpace_toNat c).mp (by
        cases hb : isPySpace c with
        | true => rfl
        | false => exact absurd hb hx)
      omega
    simp [h, h1, h2]
  · simp [h]

theorem pyLowerData (s : String) : (pyLower s).data = s.data.map asciiLower := rfl

theorem pyLower_idem (s : String) : pyLower (pyLower s) = pyLower s := by
  unfold pyLower
  simp only [List.map_map]
  exact congrArg String.mk (List.map_congr_left (fun c _ => asciiLower_idem c))

theorem dropWhile_dropWhile {α : Type} (p : α → Bool) (l : List α) :
    (l.dropWhile p).dropWhile p = l.dropWhile p := by
  cases hdl : l.dropWhile p with
  | nil => rfl
  | cons x t =>
    have h := List.head?_dropWhile_not p l
    rw [hdl] at h
    simp only [List.head?_cons] at h
    simp [List.dropWhile_cons, h]

theorem dropWhile_eq_self_of_head {α : Type} (p : α → Bool) (l : List α)
    (h : ∀ x ∈ l.head?, p x = false) : l.dropWhile p = l := by
  cases l with
  | nil => rfl
  | cons x t =>
    have hx : p x = false := h x (by simp)
    simp [List.dropWhile_cons, hx]

theorem pyStripL_split (l : List Char) : ∃ junk, l.dropWhile isPySpace = pyStripL l ++ junk ∧
    ∀ x ∈ junk, isPySpace x = true := by
  refine ⟨((l.dropWhile isPySpace).reverse.takeWhile isPySpace).reverse, ?_, ?_⟩
  · unfold pyStripL
    conv_lhs =>
      rw [← List.reverse_reverse (l.dropWhile isPySpace),
        ← List.takeWhile_append_dropWhile isPySpace (l.dropWhile isPySpace).reverse]
    rw [List.reverse_append]
  · intro x hx
    rw [List.mem_reverse] at hx
    exact List.mem_takeWhile_imp hx

theorem pyStripL_head (l : List Char) :
    ∀ c ∈ (pyStripL l).head?, isPySpace c = false := by
  intro c hc
  obtain ⟨junk, hsplit, _⟩ := pyStripL_split l
  have hmain := List.head?_dropWhile_not isPySpace l
  rw [hsplit] at hmain
  cases hps : pyStripL l with
  | nil => rw [hps] at hc; simp at hc
  | cons x t =>
    rw [hps] at hc hmain
    simp only [List.head?_cons, Option.mem_def, Option.some.injEq] at hc
    subst hc
    simpa using hmain

theorem pyStripL_last (l : List Char) :
    ∀ c ∈ (pyStripL l).getLast?, isPySpace c = false := by
  intro c hc
  unfold pyStripL at hc
  rw [List.getLast?_reverse] at hc
  have h := List.head?_dropWhile_not isPySpace (l.dropWhile isPySpace).reverse
  cases hd : ((l.dropWhile isPySpace).reverse.dropWhile isPySpace).head? with
  | none => rw [hd] at hc; simp at hc
  | some x =>
    rw [hd] at h hc
    simp only [Option.mem_def, Option.some.injEq] at hc
    subst hc
    exact h

theorem pyStripL_idem (l : List Char) : pyStripL (pyStripL l) = pyStripL l := by
  have h1 : (pyStripL l).dropWhile isPySpace = pyStripL l :=
    dropWhile_eq_self_of_head _ _ (fun x hx => pyStripL_head l x hx)
  show (((pyStripL l).dropWhile isPySpace).reverse.dropWhile isPySpace).reverse = pyStripL l
  rw [h1]
  show ((((l.dropWhile isPySpace).reverse.dropWhile isPySpace).reverse).reverse.dropWhile
    isPySpace).reverse = pyStripL l
  rw [List.reverse_reverse, dropWhile_dropWhile]
  rfl

theorem pyStripL_map_asciiLower (l : List Char) :
    pyStripL (l.map asciiLower) = (pyStripL l).map asciiLower := by
  have hf : (isPySpace ∘ asciiLower) = isPySpace := funext isPySpace_asciiLower
  unfold pyStripL
  rw [List.dropWhile_map, hf, ← List.map_reverse, List.dropWhile_map, hf,
    ← List.map_reverse]

theorem pyStrip_pyLower (s : String) : pyStrip (pyLower s) = pyLower (pyStrip s) := by
  unfold pyStrip pyLower
  exact congrArg String.mk (pyStripL_map_asciiLower s.data)

theorem pyStrip_idem (s : String) : pyStrip (pyStrip s) = pyStrip s := by
  unfold pyStrip
  exact congrArg String.mk (pyStripL_idem s.data)

theorem pyLower_of_image (w : String) :
    pyLower (pyStrip (pyLower w)) = pyStrip (pyLower w) := by
  rw [pyStrip_pyLower, pyLower_idem]

theorem pyStrip_of_image (w : String) :
    pyStrip (pyStrip (pyLower w)) = pyStrip (pyLower w) := pyStrip_idem _

/-! ## Helper lemmas: surname extraction and DOI normalisation -/

theorem extract_surname_lower (s : String) :
    extract_surname s = pyLower (extract_surname s) := by
  unfold extract_surname
  dsimp only
  repeat' split
  all_goals first
    | exact (pyLower_idem _).symm
    | rfl

theorem rstripSet_eq_self (s : String) (set : List Char)
    (h : ∀ c ∈ s.data.getLast?, set.contains c = false) : rstripSet s set = s := by
  unfold rstripSet
  rw [dropWhile_eq_self_of_head _ _ (by
    intro c hc
    rw [List.head?_reverse] at hc
    exact h c hc), List.reverse_reverse]

theorem normalize_doi_image (x : Option String) :
    normalize_doi x = none ∨ ∃ w, normalize_doi x = some (pyStrip (pyLower w)) := by
  unfold normalize_doi
  split
  · exact Or.inl rfl
  · cases x with
    | none => exact Or.inl rfl
    | some s =>
      exact Or.inr ⟨rstripSet (dropDoiColonHead (dropUrlDoiHead s)) doiTrailSet, rfl⟩

/-! ## Helper lemmas: page-range normalisation -/

theorem nsa_tail (a : Char) (l : List Char) (h : noSpaceAdjHyphen (a :: l) = true) :
    noSpaceAdjHyphen l = true := by
  cases l with
  | nil => rfl
  | cons b r =>
    unfold noSpaceAdjHyphen at h
    simp only [Bool.and_eq_true] at h
    exact h.2

theorem nsa_cons_iff (a b : Char) (l : List Char) :
    noSpaceAdjHyphen (a :: b :: l) = true ↔
      (!((a = '-' && isPySpace b) || (isPySpace a && b = '-'))) = true ∧
        noSpaceAdjHyphen (b :: l) = true := by
  conv_lhs => rw [noSpaceAdjHyphen]
  rw [Bool.and_eq_true]

theorem nsa_chain (l : List Char) : noSpaceAdjHyphen l = true ↔
    List.Chain' (fun a b => (!((a = '-' && isPySpace b) || (isPySpace a && b = '-'))) = true) l := by
  induction l with
  | nil => simp [noSpaceAdjHyphen]
  | cons a t ih =>
    cases t with
    | nil => simp [noSpaceAdjHyphen]
    | cons b r =>
      rw [nsa_cons_iff, List.chain'_cons, ih]

theorem nsa_reverse (l : List Char) :
    noSpaceAdjHyphen l.reverse = noSpaceAdjHyphen l := by
  have h : ∀ m : List Char, noSpaceAdjHyphen m = true → noSpaceAdjHyphen m.reverse = true := by
    intro m hm
    rw [nsa_chain] at hm ⊢
    rw [List.chain'_reverse]
    apply List.Chain'.imp _ hm
    intro a b hab
    simp only [flip]
    simp only [Bool.not_eq_true', Bool.or_eq_false_iff, Bool.and_eq_false_iff] at hab ⊢
    tauto
  cases h1 : noSpaceAdjHyphen l with
  | true => exact h l h1
  | false =>
    cases h2 : noSpaceAdjHyphen l.reverse with
    | true =>
      have := h l.reverse h2
      rw [List.reverse_reverse] at this
      rw [this] at h1
      simp at h1
    | false => rfl

theorem nsa_dropWhile (p : Char → Bool) (l : List Char)
    (h : noSpaceAdjHyphen l = true) : noSpaceAdjHyphen (l.dropWhile p) = true := by
  induction l with
  | nil => exact h
  | cons a t ih =>
    rw [List.dropWhile_cons]
    by_cases hp : p a = true
    · simp only [hp, if_true]
      exact ih (nsa_tail a t h)
    · simp only [hp, if_false]
      exact h

theorem nsa_pyStripL (l : List Char) (h : noSpaceAdjHyphen l = true) :
    noSpaceAdjHyphen (pyStripL l) = true := by
  unfold pyStripL
  rw [nsa_reverse]
  exact nsa_dropWhile _ _ (by rw [nsa_reverse]; exact nsa_dropWhile _ _ h)

theorem sdRun_true_head_not_space (cs : List Char) :
    ∀ c ∈ (sdRun true [] cs).head?, isPySpace c = false := by
  induction cs with
  | nil => intro c hc; simp [sdRun] at hc
  | cons a t ih =>
    intro c hc
    by_cases hsp : isPySpace a = true
    · rw [show sdRun true [] (a :: t) = sdRun true [] t by simp [sdRun, hsp]] at hc
      exact ih c hc
    · by_cases hd : a = '-'
      · have hds : isPySpace '-' = false := by decide
        rw [show sdRun true [] (a :: t) = '-' :: sdRun true [] t by
          simp [sdRun, hsp, hd, hds]] at hc
        simp only [List.head?_cons, Option.mem_def, Option.some.injEq] at hc
        subst hc
        decide
      · rw [show sdRun true [] (a :: t) = a :: sdRun false [] t by
          simp [sdRun, hsp, hd]] at hc
        simp only [List.head?_cons, Option.mem_def, Option.some.injEq] at hc
        subst hc
        simpa using hsp

theorem nsa_allSpace (l : List Char) (h : ∀ x ∈ l, isPySpace x = true) :
    noSpaceAdjHyphen l = true := by
  induction l with
  | nil => rfl
  | cons a t ih =>
    cases t with
    | nil => rfl
    | cons b r =>
      rw [nsa_cons_iff]
      constructor
      · have ha := h a (by simp)
        have hb := h b (by simp)
        have hda : a ≠ '-' := by
          intro he
          rw [he] at ha
          exact absurd ha (by decide)
        have hdb : b ≠ '-' := by
          intro he
          rw [he] at hb
          exact absurd hb (by decide)
        simp [hda, hdb]
      · exact ih (fun x hx => h x (by simp [hx]))

theorem nsa_spaces_cons (pend : List Char) (c : Char) (rest : List Char)
    (hp : ∀ x ∈ pend, isPySpace x = true) (hcd : c ≠ '-') (hcs : isPySpace c = false)
    (hr : noSpaceAdjHyphen (c :: rest) = true) :
    noSpaceAdjHyphen (pend ++ c :: rest) = true := by
  induction pend with
  | nil => exact hr
  | cons x xs ih =>
    have hx := hp x (by simp)
    have hxd : x ≠ '-' := by
      intro he
      rw [he] at hx
      exact absurd hx (by decide)
    have htail := ih (fun y hy => hp y (by simp [hy]))
    cases hxs : xs ++ c :: rest with
    | nil => simp at hxs
    | cons b r =>
      rw [List.cons_append, hxs, nsa_cons_iff]
      refine ⟨?_, by rw [← hxs]; exact htail⟩
      have hb : b = c ∨ b ∈ xs := by
        cases xs with
        | nil => simp at hxs; exact Or.inl hxs.1.symm
        | cons z zs =>
          simp only [List.cons_append, List.cons.injEq] at hxs
          exact Or.inr (by rw [hxs.1]; simp)
      have hbd : b ≠ '-' := by
        rcases hb with hb | hb
        · rw [hb]; exact hcd
        · intro he
          subst he
          have := hp '-' (by simp [hb])
          exact absurd this (by decide)
      simp [hxd, hbd]

theorem nsa_cons_safe (c : Char) (rest : List Char) (hcd : c ≠ '-')
    (hcs : isPySpace c = false) (h : noSpaceAdjHyphen rest = true) :
    noSpaceAdjHyphen (c :: rest) = true := by
  cases rest with
  | nil => rfl
  | cons b r =>
    rw [nsa_cons_iff]
    exact ⟨by simp [hcd, hcs], h⟩

theorem nsa_dash_cons (rest : List Char)
    (hh : ∀ c ∈ rest.head?, isPySpace c = false) (h : noSpaceAdjHyphen rest = true) :
    noSpaceAdjHyphen ('-' :: rest) = true := by
  cases rest with
  | nil => rfl
  | cons b r =>
    rw [nsa_cons_iff]
    have hb : isPySpace b = false := hh b (by simp)
    have hds : isPySpace '-' = false := by decide
    exact ⟨by simp [hb, hds], h⟩

theorem sdRun_nsa (cs : List Char) :
    noSpaceAdjHyphen (sdRun true [] cs) = true ∧
      (∀ pend, (∀ x ∈ pend, isPySpace x = true) →
        noSpaceAdjHyphen (sdRun false pend cs) = true) := by
  induction cs with
  | nil =>
    refine ⟨rfl, ?_⟩
    intro pend hp
    rw [show sdRun false pend [] = pend by simp [sdRun]]
    exact nsa_allSpace pend hp
  | cons a t ih =>
    obtain ⟨ihT, ihF⟩ := ih
    have hds : isPySpace '-' = false := by decide
    constructor
    · by_cases hsp : isPySpace a = true
      · rw [show sdRun true [] (a :: t) = sdRun true [] t by simp [sdRun, hsp]]
        exact ihT
      · by_cases hd : a = '-'
        · rw [show sdRun true [] (a :: t) = '-' :: sdRun true [] t by
            simp [sdRun, hsp, hd, hds]]
          exact nsa_dash_cons _ (sdRun_true_head_not_space t) ihT
        · rw [show sdRun true [] (a :: t) = a :: sdRun false [] t by
            simp [sdRun, hsp, hd]]
          exact nsa_cons_safe a _ hd (by simpa using hsp) (ihF [] (by simp))
    · intro pend hp
      by_cases hsp : isPySpace a = true
      · have had : a ≠ '-' := by
          intro he
          rw [he] at hsp
          exact absurd hsp (by decide)
        rw [show sdRun false pend (a :: t) = sdRun false (pend ++ [a]) t by
          simp [sdRun, hsp, had]]
        refine ihF (pend ++ [a]) ?_
        intro x hx
        rcases List.mem_append.mp hx with hx | hx
        · exact hp x hx
        · simp at hx
          rw [hx]
          exact hsp
      · by_cases hd : a = '-'
        · rw [show sdRun false pend (a :: t) = '-' :: sdRun true [] t by
            simp [sdRun, hsp, hd]]
          exact nsa_dash_cons _ (sdRun_true_head_not_space t) ihT
        · rw [show sdRun false pend (a :: t) = pend ++ a :: sdRun false [] t by
            simp [sdRun, hsp, hd]]
          exact nsa_spaces_cons pend a _ hp hd (by simpa using hsp)
            (nsa_cons_safe a _ hd (by simpa using hsp) (ihF [] (by simp)))

theorem sdRun_mem (cs : List Char) :
    ∀ (st : Bool) (pend : List Char) (c : Char), c ∈ sdRun st pend cs →
      c = '-' ∨ c ∈ pend ∨ c ∈ cs := by
  induction cs with
  | nil =>
    intro st pend c hc
    unfold sdRun at hc
    split at hc
    · simp at hc
    · exact Or.inr (Or.inl hc)
  | cons a t ih =>
    intro st pend c hc
    unfold sdRun at hc
    by_cases h1 : (st && isPySpace a) = true
    · rw [if_pos h1] at hc
      rcases ih true [] c hc with h | h | h
      · exact Or.inl h
      · simp at h
      · exact Or.inr (Or.inr (by simp [h]))
    · rw [if_neg h1] at hc
      by_cases hd : a = '-'
      · rw [if_pos hd] at hc
        rcases List.mem_cons.mp hc with h | h
        · exact Or.inl h
        · rcases ih true [] c h with h | h | h
          · exact Or.inl h
          · simp at h
          · exact Or.inr (Or.inr (by simp [h]))
      · rw [if_neg hd] at hc
        by_cases hsp : isPySpace a = true
        · rw [if_pos hsp] at hc
          rcases ih false (pend ++ [a]) c hc with h | h | h
          · exact Or.inl h
          · rcases List.mem_append.mp h with h | h
            · exact Or.inr (Or.inl h)
            · simp at h
              exact Or.inr (Or.inr (by simp [h]))
          · exact Or.inr (Or.inr (by simp [h]))
        · rw [if_neg hsp] at hc
          rcases List.mem_append.mp hc with h | h
          · exact Or.inr (Or.inl h)
          · rcases List.mem_cons.mp h with h | h
            · exact Or.inr (Or.inr (by simp [h]))
            · rcases ih false [] c h with h | h | h
              · exact Or.inl h
              · simp at h
              · exact Or.inr (Or.inr (by simp [h]))

theorem pyStripL_mem (l : List Char) (c : Char) (hc : c ∈ pyStripL l) : c ∈ l := by
  obtain ⟨junk, hsplit, _⟩ := pyStripL_split l
  have h1 : c ∈ l.dropWhile isPySpace := by
    rw [hsplit]
    exact List.mem_append_left _ hc
  exact (List.dropWhile_sublist _).subset h1

theorem mapDashes_mem (l : List Char) (c : Char) (hc : c ∈ mapDashes l) :
    uniDashes.contains c = false := by
  unfold mapDashes at hc
  rw [List.mem_map] at hc
  obtain ⟨x, _, hx⟩ := hc
  by_cases h : uniDashes.contains x = true
  · rw [if_pos h] at hx
    rw [← hx]
    decide
  · rw [if_neg h] at hx
    rw [← hx]
    exact Bool.not_eq_true _ ▸ h

theorem subDash_noUniDash (l : List Char)
    (h : ∀ c ∈ l, uniDashes.contains c = false) :
    ∀ c ∈ subDash l, uniDashes.contains c = false := by
  intro c hc
  rcases sdRun_mem l false [] c hc with h1 | h1 | h1
  · rw [h1]
    decide
  · simp at h1
  · exact h c h1

/-! ## Helper lemmas: the best-candidate fold -/

theorem bestCand_fold (sim : String → String → Nat) (t : String) :
    ∀ (cs : List ProviderRecord) (s0 : Nat) (r0 : Option ProviderRecord),
      s0 ≤ (cs.foldl (fun acc c =>
        let score := sim (standardize_title t) (standardizeTitleOpt c.c_title)
        if score > acc.1 then (score, some c) else acc) (s0, r0)).1 ∧
      (∀ c ∈ cs, sim (standardize_title t) (standardizeTitleOpt c.c_title) ≤
        (cs.foldl (fun acc c =>
          let score := sim (standardize_title t) (standardizeTitleOpt c.c_title)
          if score > acc.1 then (score, some c) else acc) (s0, r0)).1) ∧
      ((cs.foldl (fun acc c =>
          let score := sim (standardize_title t) (standardizeTitleOpt c.c_title)
          if score > acc.1 then (score, some c) else acc) (s0, r0)) = (s0, r0) ∨
        ∃ c ∈ cs, (cs.foldl (fun acc c =>
          let score := sim (standardize_title t) (standardizeTitleOpt c.c_title)
          if score > acc.1 then (score, some c) else acc) (s0, r0)).2 = some c ∧
          sim (standardize_title t) (standardizeTitleOpt c.c_title) =
          (cs.foldl (fun acc c =>
            let score := sim (standardize_title t) (standardizeTitleOpt c.c_title)
            if score > acc.1 then (score, some c) else acc) (s0, r0)).1) := by
  intro cs
  induction cs with
  | nil =>
    intro s0 r0
    exact ⟨Nat.le_refl _, by simp, Or.inl rfl⟩
  | cons c cs ih =>
    intro s0 r0
    simp only [List.foldl_cons]
    by_cases hgt : sim (standardize_title t) (standardizeTitleOpt c.c_title) > s0
    · rw [if_pos hgt]
      obtain ⟨h1, h2, h3⟩ := ih (sim (standardize_title t) (standardizeTitleOpt c.c_title)) (some c)
      refine ⟨Nat.le_trans (Nat.le_of_lt hgt) h1, ?_, ?_⟩
      · intro d hd
        rcases List.mem_cons.mp hd with hd | hd
        · rw [hd]
          exact h1
        · exact h2 d hd
      · rcases h3 with h3 | ⟨d, hd, hd2, hd3⟩
        · right
          exact ⟨c, by simp, by rw [h3], by rw [h3]⟩
        · right
          exact ⟨d, by simp [hd], hd2, hd3⟩
    · rw [if_neg hgt]
      obtain ⟨h1, h2, h3⟩ := ih s0 r0
      refine ⟨h1, ?_, ?_⟩
      · intro d hd
        rcases List.mem_cons.mp hd with hd | hd
        · rw [hd]
          exact Nat.le_trans (Nat.le_of_not_lt hgt) h1
        · exact h2 d hd
      · rcases h3 with h3 | ⟨d, hd, hd2, hd3⟩
        · exact Or.inl h3
        · exact Or.inr ⟨d, by simp [hd], hd2, hd3⟩

theorem bestCand_le (sim : String → String → Nat) (t : String) (cs : List ProviderRecord) :
    ∀ c ∈ cs, sim (standardize_title t) (standardizeTitleOpt c.c_title) ≤
      (bestCand sim t cs).1 :=
  (bestCand_fold sim t cs 0 none).2.1

theorem bestCand_attained (sim : String → String → Nat) (t : String)
    (cs : List ProviderRecord) (h : 0 < (bestCand sim t cs).1) :
    ∃ c ∈ cs, (bestCand sim t cs).2 = some c ∧
      sim (standardize_title t) (standardizeTitleOpt c.c_title) = (bestCand sim t cs).1 := by
  rcases (bestCand_fold sim t cs 0 none).2.2 with h1 | h1
  · unfold bestCand at h
    rw [h1] at h
    exact absurd h (by simp)
  · exact h1

/-! ## Claim theorems -/

set_option maxRecDepth 1000000

/-- C6: parsing the line `Cortes, C., & Vapnik, V. (1995). Support-vector
Networks. Machine Learning, 20(3), 273–297.` yields year 1995 with the
parenthetical-year flag set, title `Support-vector Networks`, a journal
containing `Machine Learning`, volume `20`, issue `3`, and the page
range `273-297` with the en dash normalised to an ASCII hyphen. -/
theorem cortes_parse_scenario :
    (parse_reference cortesLine).map (fun r =>
      (r.ref_year, r.year_in_parentheses, r.ref_title,
        containsSub r.ref_journal "Machine Learning", r.ref_volume, r.ref_issue,
        r.ref_page_range)) =
    .ok (some 1995, true, "Support-vector Networks", true, "20", "3", "273-297") := by
  rfl

/-- C5: the pipeline is not abort-free.  A provider record whose year
field is absent reaches `compare_metadata` and `verify_status` as the
string `"Unknown"`, and `abs(ref_year - oa_year)` raises `TypeError`
when the parsed year is an integer; moreover `parse_reference` itself
raises `IndexError` on a whitespace-only line (no comma, no period, no
year). -/
theorem processing_raises_on_string_year :
    compare_year (some 1995) (.str "Unknown") =
      .error "TypeError: unsupported operand types for abs subtraction" ∧
    verify_status sim92 scoreExP { scoreExM with oa_year := .str "Unknown" } =
      .error "TypeError: unsupported operand types for abs subtraction" ∧
    parse_reference "" = .error "IndexError: list index out of range" := by
  refine ⟨rfl, rfl, rfl⟩

/-- C4 counterexample: at parsed year 1995 against a provider year 0 the
code records no delta (Python truthiness treats the year 0 as absent),
while the claim, which reads both years as present, prescribes a
recorded delta of 1995. -/
theorem year_zero_delta_unrecorded :
    compare_year (some 1995) (.int 0) = .ok (.major, none) ∧
      (.ok (.major, none) : Except String (YearDiff × Option Nat)) ≠
        .ok (.major, some 1995) := by
  refine ⟨rfl, by decide⟩

/-- C4 as amended: with years that are absent, zero, or integers (the
string-year case is a separate defect, claim C5), the comparison flags a
major difference with no recorded delta whenever either side is absent
*or zero*, and otherwise records the absolute delta and classifies it
0 / 1–2 / more than 2. -/
theorem year_comparison_amended (r o : Option Int) :
    compare_year r (pyYearOfOpt o) = .ok (yearDiffAmended r o) := by
  cases r with
  | none => cases o <;> rfl
  | some a =>
    cases o with
    | none => simp [compare_year, yearDiffAmended, pyYearOfOpt, pyYearTruthy]
    | some b =>
      unfold compare_year yearDiffAmended pyYearOfOpt yearTruthyOpt pyYearTruthy
      by_cases ha : a = 0
      · simp [ha]
      · by_cases hb : b = 0
        · simp [ha, hb]
        · simp [ha, hb]

/-- C7 counterexample: `normalize_doi` strips only one `doi:` layer per
application, so it is not idempotent on `doi:doi:10.1/a`. -/
theorem normalize_doi_not_idempotent :
    normalize_doi (some "doi:doi:10.1/a") = some "doi:10.1/a" ∧
    normalize_doi (some "doi:10.1/a") = some "10.1/a" ∧
    normalize_doi (normalize_doi (some "doi:doi:10.1/a")) ≠
      normalize_doi (some "doi:doi:10.1/a") := by
  refine ⟨by decide, by decide, by decide⟩

/-- C8 counterexample: an input with no hyphen at all is returned
unchanged, so the output is neither the sentinel nor a one-hyphen range
with two non-empty halves. -/
theorem page_range_shape_fails_on_abc :
    normalize_page_range "abc" = "abc" ∧ claimShapePage "abc" = false := by
  refine ⟨by decide, by decide⟩

/-- C8 as amended: the output of page-range normalisation is the
sentinel `-`, or a string in which every dash variant has been unified
to an ASCII hyphen, no whitespace is adjacent to any hyphen, and no
whitespace remains at either end; the stronger claimed shape (exactly
one hyphen between two non-empty halves) is not guaranteed for
arbitrary input. -/
theorem page_range_normal_shape (s : String) :
    normalize_page_range s = "-" ∨
      (noUniDash (normalize_page_range s).data = true ∧
        noSpaceAdjHyphen (normalize_page_range s).data = true ∧
        noEdgeSpace (normalize_page_range s).data = true) := by
  unfold normalize_page_range
  by_cases h : s = "" ∨ s = "-"
  · rw [if_pos h]
    exact Or.inl rfl
  · rw [if_neg h]
    right
    have hdata : (pyStrip (String.mk (subDash (mapDashes s.data)))).data
        = pyStripL (subDash (mapDashes s.data)) := rfl
    refine ⟨?_, ?_, ?_⟩
    · rw [hdata]
      unfold noUniDash
      rw [List.all_eq_true]
      intro c hc
      have := subDash_noUniDash (mapDashes s.data)
        (fun d hd => mapDashes_mem s.data d hd) c (pyStripL_mem _ c hc)
      simp only [Bool.not_eq_true']
      exact this
    · rw [hdata]
      exact nsa_pyStripL _ ((sdRun_nsa (mapDashes s.data)).2 [] (by simp))
    · rw [hdata]
      unfold noEdgeSpace
      rw [Bool.and_eq_true]
      constructor
      · cases hh : (pyStripL (subDash (mapDashes s.data))).head? with
        | none => rfl
        | some c =>
          have := pyStripL_head (subDash (mapDashes s.data)) c (by rw [hh]; rfl)
          simp [this]
      · cases hh : (pyStripL (subDash (mapDashes s.data))).getLast? with
        | none => rfl
        | some c =>
          have := pyStripL_last (subDash (mapDashes s.data)) c (by rw [hh]; rfl)
          simp [this]

/-- C10: `extract_surname` always returns a string equal to its own
lower-case form, so the exact-equality surname comparisons downstream
are case-insensitive by construction. -/
theorem surname_lowercase_invariant (a b : String) :
    extract_surname a = pyLower (extract_surname a) ∧
      (extract_surname a = extract_surname b ↔
        pyLower (extract_surname a) = pyLower (extract_surname b)) := by
  refine ⟨extract_surname_lower a, ?_, ?_⟩
  · intro h
    rw [h]
  · intro h
    rw [extract_surname_lower a, extract_surname_lower b, h]

/-- C7 as amended: `normalize_doi` is idempotent on every input whose
first normalisation is non-empty, starts with no removable
URL/`doi:` head, and does not end in trimmable punctuation — in
particular on every well-formed DOI; in general one application can
expose another strippable layer. -/
theorem normalize_doi_idem_on_stable (x : Option String)
    (h : (match normalize_doi x with
          | some y => doiNormStable y
          | none => true) = true) :
    normalize_doi (normalize_doi x) = normalize_doi x := by
  cases hx : normalize_doi x with
  | none => simp [normalize_doi, truthyStr]
  | some y =>
    rw [hx] at h
    unfold doiNormStable at h
    simp only [Bool.and_eq_true, decide_eq_true_eq, Bool.not_eq_true',
      Option.isNone_iff_eq_none] at h
    obtain ⟨⟨⟨h1, h2⟩, h3⟩, h4⟩ := h
    have him := normalize_doi_image x
    rw [hx] at him
    rcases him with him | ⟨w, hw⟩
    · exact absurd him (by simp)
    · have hyw : y = pyStrip (pyLower w) := by
        injection hw
      have ht : truthyStr (some y) = true := by
        simpa [truthyStr] using h1
      show normalize_doi (some y) = some y
      unfold normalize_doi
      rw [if_neg (by simp [ht])]
      show some (pyStrip (pyLower (rstripSet (dropDoiColonHead (dropUrlDoiHead y))
        doiTrailSet))) = some y
      have hu : dropUrlDoiHead y = y := by
        unfold dropUrlDoiHead
        rw [h2]
      have hc : dropDoiColonHead y = y := by
        unfold dropDoiColonHead
        rw [if_neg (by simp [h3])]
      have hr : rstripSet y doiTrailSet = y := by
        refine rstripSet_eq_self y doiTrailSet ?_
        intro c hcm
        cases hg : y.data.getLast? with
        | none => rw [hg] at hcm; simp at hcm
        | some d =>
          rw [hg] at hcm h4
          simp only [Option.mem_def, Option.some.injEq] at hcm
          subst hcm
          simpa using h4
      rw [hu, hc, hr, hyw, pyLower_of_image, pyStrip_of_image]

/-- C2: for every similarity oracle and every pair of records whose
provider year is not a string (the string case is claim C5's defect),
`verify_status` returns exactly the spec's additive rubric — +2/+1/0
from title similarity, +1 for non-empty case-insensitively equal
surnames, +1 for years both present within 2 — classified as
verified/high at 4, ambiguous/medium at 2–3, unverified/low below; in
particular similarity 92 with matching surname and year delta 1 scores
4 and is verified/high. -/
theorem verify_scoring (simF : String → String → Nat) (p : ParsedRef) (m : OaMeta)
    (hy : notStrYear m.oa_year = true) :
    verify_status simF p m = .ok (verifyClassSpec (verifyScoreSpec simF p m)) ∧
    verifyScoreSpec sim92 scoreExP scoreExM = 4 ∧
    verify_status sim92 scoreExP scoreExM = .ok ("verified", "high") := by
  refine ⟨?_, by rfl, by rfl⟩
  have hyp : yearPts p.ref_year m.oa_year = .ok (match p.ref_year, m.oa_year with
      | some r, .int o => if (r - o).natAbs ≤ 2 then 1 else 0
      | _, _ => 0) := by
    cases hyy : m.oa_year with
    | str s =>
      rw [hyy] at hy
      exact absurd hy (by simp [notStrYear])
    | none => cases p.ref_year <;> rfl
    | int n => cases p.ref_year <;> rfl
  have hsur : (extract_surname p.ref_first_author ≠ "" ∧
      extract_surname m.oa_first_author ≠ "" ∧
      extract_surname p.ref_first_author = extract_surname m.oa_first_author) ↔
      (extract_surname p.ref_first_author ≠ "" ∧
        extract_surname m.oa_first_author ≠ "" ∧
        pyLower (extract_surname p.ref_first_author) =
          pyLower (extract_surname m.oa_first_author)) := by
    constructor
    · rintro ⟨h1, h2, h3⟩
      exact ⟨h1, h2, by rw [h3]⟩
    · rintro ⟨h1, h2, h3⟩
      refine ⟨h1, h2, ?_⟩
      rw [extract_surname_lower p.ref_first_author,
        extract_surname_lower m.oa_first_author, h3]
  unfold verify_status verifyScoreSpec verifyClassSpec
  rw [hyp]
  dsimp only
  rw [if_congr hsur rfl rfl]

/-- C1: given the abstract inputs the spec names — original DOI, direct
lookup success, title-search provenance, normalized-DOI equality,
external-DOI presence, final title similarity — the code's DOI
reconciliation returns exactly the §4.6 table's fill status and filled
DOI (top-to-bottom, first match wins), provided the original DOI, when
present, has a non-empty normalisation (true of every DOI the parser
emits); and with no external record at all the status is `unverified`
with no filled DOI when an original DOI existed, else `missing`. -/
theorem doi_decision_matches_table (o a : Option String) (l m : Bool) (s : Nat)
    (h : truthyStr o = true → truthyStr (normalize_doi o) = true) :
    doiFillDecision o a l m s =
      doiFillSpecTable (truthyStr o) l (decide (s < TITLE_MISMATCH_THRESHOLD))
        (decide (normalize_doi o = normalize_doi a)) m (truthyStr a) o a ∧
    noRecordDoiFill o =
      (if truthyStr o then ("unverified", none) else ("missing", none)) := by
  refine ⟨?_, rfl⟩
  unfold doiFillDecision doiFillSpecTable
  by_cases ho : truthyStr o = true
  · simp only [ho, if_true]
    by_cases hs : s < TITLE_MISMATCH_THRESHOLD
    · have hs2 : ¬(s ≥ TITLE_MISMATCH_THRESHOLD) := by omega
      by_cases hl : l = true
      · simp [hl, hs]
      · by_cases hm : m = true <;> by_cases hta : truthyStr a = true <;>
          by_cases hne : normalize_doi o = normalize_doi a <;>
          simp [hl, hs, hs2, hm, hta, hne]
    · have hs2 : s ≥ TITLE_MISMATCH_THRESHOLD := by omega
      by_cases hne : normalize_doi o = normalize_doi a
      · have hna : truthyStr (normalize_doi a) = true := by
          rw [← hne]
          exact h ho
        simp [hs, hs2, hne, hna]
      · by_cases hm : m = true <;> by_cases hta : truthyStr a = true <;>
          simp [hs, hs2, hne, hm, hta]
  · simp only [Bool.not_eq_true] at ho
    simp [ho]

theorem truthyStr_exists (o : Option String) (h : truthyStr o = true) :
    ∃ v, o = some v ∧ v ≠ "" := by
  cases o with
  | none => simp [truthyStr] at h
  | some v => exact ⟨v, rfl, by simpa [truthyStr] using h⟩

theorem doiFill_cases (o a : Option String) (l m : Bool) (s : Nat) :
    doiFillDecision o a l m s = ("doi_title_mismatch", none) ∨
    (doiFillDecision o a l m s = ("original_correct", o) ∧ truthyStr o = true) ∨
    (doiFillDecision o a l m s = ("title_matched_doi_corrected", a) ∧ truthyStr a = true) ∨
    (doiFillDecision o a l m s = ("original_wrong_corrected", a) ∧ truthyStr a = true) ∨
    (doiFillDecision o a l m s = ("original_unverified", o) ∧ truthyStr o = true) ∨
    (doiFillDecision o a l m s = ("filled_from_database", a) ∧ truthyStr a = true) ∨
    doiFillDecision o a l m s = ("missing", none) := by
  unfold doiFillDecision
  dsimp only
  split_ifs with h1 h2 h3 h4 h5 h6
  · exact Or.inl rfl
  · exact Or.inr (Or.inl ⟨rfl, h1⟩)
  · exact Or.inr (Or.inr (Or.inl ⟨rfl, h4.2⟩))
  · exact Or.inr (Or.inr (Or.inr (Or.inl ⟨rfl, h5.1⟩)))
  · exact Or.inr (Or.inr (Or.inr (Or.inr (Or.inl ⟨rfl, h1⟩))))
  · exact Or.inr (Or.inr (Or.inr (Or.inr (Or.inr (Or.inl ⟨rfl, h6⟩)))))
  · exact Or.inr (Or.inr (Or.inr (Or.inr (Or.inr (Or.inr rfl)))))

/-- C9: the filled DOI is absent exactly in the statuses
`doi_title_mismatch`, `missing` and `unverified`; in every other status
it is a non-empty string taken from the original citation or from the
external record. -/
theorem doi_fill_invariant (o a : Option String) (l m : Bool) (s : Nat) :
    ((doiFillDecision o a l m s).2 = none ↔
      ((doiFillDecision o a l m s).1 = "doi_title_mismatch" ∨
        (doiFillDecision o a l m s).1 = "missing" ∨
        (doiFillDecision o a l m s).1 = "unverified")) ∧
    ((doiFillDecision o a l m s).2 ≠ none →
      ∃ v, (doiFillDecision o a l m s).2 = some v ∧ v ≠ "" ∧
        ((doiFillDecision o a l m s).2 = o ∨ (doiFillDecision o a l m s).2 = a)) ∧
    (noRecordDoiFill o).2 = none ∧
    ((noRecordDoiFill o).1 = "unverified" ∨ (noRecordDoiFill o).1 = "missing") := by
  have hNR : (noRecordDoiFill o).2 = none ∧
      ((noRecordDoiFill o).1 = "unverified" ∨ (noRecordDoiFill o).1 = "missing") := by
    unfold noRecordDoiFill
    split_ifs <;> simp
  rcases doiFill_cases o a l m s with hD | ⟨hD, ht⟩ | ⟨hD, ht⟩ | ⟨hD, ht⟩ | ⟨hD, ht⟩ |
    ⟨hD, ht⟩ | hD
  · exact ⟨by rw [hD]; simp, by rw [hD]; simp, hNR.1, hNR.2⟩
  · obtain ⟨v, hv, hv2⟩ := truthyStr_exists o ht
    refine ⟨by rw [hD, hv]; simp, ?_, hNR.1, hNR.2⟩
    intro _
    rw [hD]
    exact ⟨v, by rw [hv], hv2, Or.inl rfl⟩
  · obtain ⟨v, hv, hv2⟩ := truthyStr_exists a ht
    refine ⟨by rw [hD, hv]; simp, ?_, hNR.1, hNR.2⟩
    intro _
    rw [hD]
    exact ⟨v, by rw [hv], hv2, Or.inr rfl⟩
  · obtain ⟨v, hv, hv2⟩ := truthyStr_exists a ht
    refine ⟨by rw [hD, hv]; simp, ?_, hNR.1, hNR.2⟩
    intro _
    rw [hD]
    exact ⟨v, by rw [hv], hv2, Or.inr rfl⟩
  · obtain ⟨v, hv, hv2⟩ := truthyStr_exists o ht
    refine ⟨by rw [hD, hv]; simp, ?_, hNR.1, hNR.2⟩
    intro _
    rw [hD]
    exact ⟨v, by rw [hv], hv2, Or.inl rfl⟩
  · obtain ⟨v, hv, hv2⟩ := truthyStr_exists a ht
    refine ⟨by rw [hD, hv]; simp, ?_, hNR.1, hNR.2⟩
    intro _
    rw [hD]
    exact ⟨v, by rw [hv], hv2, Or.inr rfl⟩
  · exact ⟨by rw [hD]; simp, by rw [hD]; simp, hNR.1, hNR.2⟩

/-- C3 counterexample: with no DOI-resolved record but a parsed title
equal to the sentinel `Unknown`, the code performs no title search even
though the claim's condition (no record, or similarity below the
mismatch threshold) holds. -/
theorem title_search_skipped_on_unknown :
    (titleSearchPhase sim0 "Unknown" none 0 none [] []).searchedTitle = false ∧
    ¬((titleSearchPhase sim0 "Unknown" none 0 none [] []).searchedTitle = true ↔
      ((none : Option ProviderRecord).isNone = true ∨ 0 < TITLE_MISMATCH_THRESHOLD)) := by
  refine ⟨rfl, ?_⟩
  intro hiff
  have h := hiff.mpr (Or.inl rfl)
  exact absurd h (by decide)

/-- C3 as amended: the title-search block runs exactly when (no record
was resolved by DOI, or its similarity is below the mismatch threshold
70) *and the parsed title is not the sentinel `Unknown`*; within it the
secondary provider is queried exactly when the primary returned no
candidates, the accepted record maximises the similarity over the
candidate list consulted, acceptance happens exactly when that maximum
reaches the acceptance threshold 85, and acceptance is what sets the
`matched_by_title` flag. -/
theorem title_search_amended (simF : String → String → Nat) (t : String)
    (rec : Option ProviderRecord) (score : Nat) (ds0 : Option String)
    (oaC crC : List ProviderRecord) :
    (titleSearchPhase simF t rec score ds0 oaC crC).searchedTitle =
      ((rec.isNone || decide (score < TITLE_MISMATCH_THRESHOLD)) && !(t == "Unknown")) ∧
    (titleSearchPhase simF t rec score ds0 oaC crC).queriedCrossref =
      ((rec.isNone || decide (score < TITLE_MISMATCH_THRESHOLD)) && !(t == "Unknown") &&
        oaC.isEmpty) ∧
    (titleSearchPhase simF t rec score ds0 oaC crC).matched_by_title =
      ((rec.isNone || decide (score < TITLE_MISMATCH_THRESHOLD)) && !(t == "Unknown") &&
        decide (TITLE_THRESHOLD ≤ (bestCand simF t (if oaC.isEmpty then crC else oaC)).1)) ∧
    (titleSearchPhase simF t rec score ds0 oaC crC).record =
      (if (titleSearchPhase simF t rec score ds0 oaC crC).matched_by_title then
        (bestCand simF t (if oaC.isEmpty then crC else oaC)).2
      else rec) ∧
    (∀ c ∈ (if oaC.isEmpty then crC else oaC),
      simF (standardize_title t) (standardizeTitleOpt c.c_title) ≤
        (bestCand simF t (if oaC.isEmpty then crC else oaC)).1) ∧
    ((titleSearchPhase simF t rec score ds0 oaC crC).matched_by_title = true →
      ∃ r, (titleSearchPhase simF t rec score ds0 oaC crC).record = some r ∧
        r ∈ (if oaC.isEmpty then crC else oaC) ∧
        simF (standardize_title t) (standardizeTitleOpt r.c_title) =
          (bestCand simF t (if oaC.isEmpty then crC else oaC)).1) := by
  by_cases hg1 : (rec.isNone || decide (score < TITLE_MISMATCH_THRESHOLD)) = true
  · by_cases hg2 : t = "Unknown"
    · subst hg2
      refine ⟨?_, ?_, ?_, ?_, bestCand_le simF "Unknown" _, ?_⟩ <;>
        simp [titleSearchPhase, hg1]
    · have hg2b : (t == "Unknown") = false := by
        simp [hg2]
      by_cases hoa : oaC.isEmpty = true
      · by_cases hcr : crC.isEmpty = true
        · have hbest : bestCand simF t crC = (0, none) := by
            rw [List.isEmpty_iff] at hcr
            rw [hcr]
            rfl
          refine ⟨?_, ?_, ?_, ?_, bestCand_le simF t _, ?_⟩ <;>
            simp [titleSearchPhase, titleSelect, hg1, hg2, hg2b, hoa, hcr, hbest,
              TITLE_THRESHOLD]
        · by_cases hacc : TITLE_THRESHOLD ≤ (bestCand simF t crC).1
          · obtain ⟨r, hrm, hr2, hr3⟩ := bestCand_attained simF t crC (by
              have : (0 : Nat) < TITLE_THRESHOLD := by decide
              omega)
            refine ⟨?_, ?_, ?_, ?_, bestCand_le simF t _, ?_⟩ <;>
              simp [titleSearchPhase, titleSelect, hg1, hg2, hg2b, hoa, hcr, hacc,
                Nat.le_of_lt, hr2, hrm, hr3, Option.isSome_iff_exists]
          · refine ⟨?_, ?_, ?_, ?_, bestCand_le simF t _, ?_⟩ <;>
              simp [titleSearchPhase, titleSelect, hg1, hg2, hg2b, hoa, hcr, hacc]
      · by_cases hacc : TITLE_THRESHOLD ≤ (bestCand simF t oaC).1
        · obtain ⟨r, hrm, hr2, hr3⟩ := bestCand_attained simF t oaC (by
            have : (0 : Nat) < TITLE_THRESHOLD := by decide
            omega)
          refine ⟨?_, ?_, ?_, ?_, bestCand_le simF t _, ?_⟩ <;>
            simp [titleSearchPhase, titleSelect, hg1, hg2, hg2b, hoa, hacc, hr2, hrm, hr3,
              Option.isSome_iff_exists]
        · refine ⟨?_, ?_, ?_, ?_, bestCand_le simF t _, ?_⟩ <;>
            simp [titleSearchPhase, titleSelect, hg1, hg2, hg2b, hoa, hacc]
  · have hg1b : (rec.isNone || decide (score < TITLE_MISMATCH_THRESHOLD)) = false := by
      cases h : (rec.isNone || decide (score < TITLE_MISMATCH_THRESHOLD)) with
      | false => rfl
      | true => exact absurd h hg1
    refine ⟨?_, ?_, ?_, ?_, bestCand_le simF t _, ?_⟩ <;>
      simp [titleSearchPhase, hg1b]

/-- Witness for the DOI decision theorem at a concrete input: original
DOI `10.1/abc`, external DOI `10.2/xyz`, successful lookup, similarity
95, not matched by title. -/
theorem doi_decision_matches_table_witness :
    doiFillDecision (some "10.1/abc") (some "10.2/xyz") true false 95 =
      doiFillSpecTable (truthyStr (some "10.1/abc")) true
        (decide (95 < TITLE_MISMATCH_THRESHOLD))
        (decide (normalize_doi (some "10.1/abc") = normalize_doi (some "10.2/xyz")))
        false (truthyStr (some "10.2/xyz")) (some "10.1/abc") (some "10.2/xyz") ∧
    noRecordDoiFill (some "10.1/abc") =
      (if truthyStr (some "10.1/abc") then ("unverified", none) else ("missing", none)) :=
  doi_decision_matches_table (some "10.1/abc") (some "10.2/xyz") true false 95
    (fun _ => by decide)

/-- Witness for the scoring theorem at the spec's concrete example. -/
theorem verify_scoring_witness :
    verify_status sim92 scoreExP scoreExM =
      .ok (verifyClassSpec (verifyScoreSpec sim92 scoreExP scoreExM)) ∧
    verifyScoreSpec sim92 scoreExP scoreExM = 4 ∧
    verify_status sim92 scoreExP scoreExM = .ok ("verified", "high") :=
  verify_scoring sim92 scoreExP scoreExM (by rfl)

/-- Witness for the amended title-search theorem at a concrete input:
no DOI-resolved record and one primary candidate. -/
theorem title_search_amended_witness :
    (titleSearchPhase sim92 "Support-vector Networks" none 0 none [provEx] []).searchedTitle =
      (((none : Option ProviderRecord).isNone || decide (0 < TITLE_MISMATCH_THRESHOLD)) &&
        !("Support-vector Networks" == "Unknown")) :=
  (title_search_amended sim92 "Support-vector Networks" none 0 none [provEx] []).1

/-- Witness for the amended idempotence theorem on a well-formed DOI
(upper-case on the first pass). -/
theorem normalize_doi_idem_on_stable_witness :
    normalize_doi (normalize_doi (some "10.1/AB")) = normalize_doi (some "10.1/AB") :=
  normalize_doi_idem_on_stable (some "10.1/AB") (by decide)

/-- Witness for the fill invariant at a concrete input. -/
theorem doi_fill_invariant_witness :
    (doiFillDecision (some "10.1/abc") (some "10.2/xyz") true false 95).2 = none ↔
      ((doiFillDecision (some "10.1/abc") (some "10.2/xyz") true false 95).1 =
          "doi_title_mismatch" ∨
        (doiFillDecision (some "10.1/abc") (some "10.2/xyz") true false 95).1 = "missing" ∨
        (doiFillDecision (some "10.1/abc") (some "10.2/xyz") true false 95).1 =
          "unverified") :=
  (doi_fill_invariant (some "10.1/abc") (some "10.2/xyz") true false 95).1
